import Mathlib

set_option maxRecDepth 100000

/-!
Shallow embedding of `src/data_masking_tool.py` (class `DataMasker`): the
value tokenizer (`_generate_masked_value`, MD5-based), the sensitivity
classifier (`_check_column_name`, `_check_data_patterns`,
`_check_high_cardinality`, `auto_detect_sensitive_columns`) and the
masking/unmasking transforms (`mask_dataframe`, `unmask_dataframe`) over an
in-memory mapping store.

Modelling conventions:
- A dataframe is an ordered association list of (column name, cells); a cell
  is a null, a string, or an integer (the scalar kinds the spec's data model
  names).  Column access `df[col]` is first-match lookup; a missing column is
  the `KeyError` path, modelled with `Except`.
- Python dicts are association lists with first-match lookup and
  assign-or-append insertion (`dinsert`), which mirrors dict insertion order
  semantics.
- MD5 is implemented in full (RFC 1321) on byte lists, with 32-bit words as
  `Nat` reduced `% 2^32`, so that tokens evaluate concretely.
- Python float threshold tests `m / n > 0.7` and `> 0.8` are modelled as the
  exact rational comparisons `10*m > 7*n` and `5*m > 4*n`; for the sample
  and row sizes involved (denominators far below 2^50) the double-precision
  comparison in the source and the rational comparison agree.
-/

/-- A scalar cell of a dataset: null/missing, a string, or a number. -/
inductive Cell : Type
  | null : Cell
  | str : String → Cell
  | num : Int → Cell
deriving DecidableEq, Repr

/-- Python `str(x)` on a cell.  `str` of a string is itself; `str` of an int
is its decimal form.  The null case is guarded by `pd.notna` everywhere it
matters; `str(nan)` would be `"nan"`. -/
def Cell.strRep : Cell → String
  | .null => "nan"
  | .str s => s
  | .num n => toString n

/-- A dataframe: ordered named columns of cells. -/
abbrev DataFrame : Type := List (String × List Cell)

/-- First-match association-list lookup (Python dict/column access). -/
def alookup {α : Type} : List (String × α) → String → Option α
  | [], _ => none
  | (k, v) :: rest, key => if k = key then some v else alookup rest key

/-- Python `key in dict`. -/
def acontains {α : Type} (l : List (String × α)) (k : String) : Bool :=
  (alookup l k).isSome

/-- Python `dict[k] = v`: replace the value in place if the key exists,
else append a new entry (dict insertion-order semantics). -/
def dinsert {α : Type} (l : List (String × α)) (k : String) (v : α) :
    List (String × α) :=
  if acontains l k then l.map (fun p => if p.1 = k then (p.1, v) else p)
  else l ++ [(k, v)]

/-! ## MD5 (RFC 1321), as used by `hashlib.md5` in `_generate_masked_value` -/

/-- 2^32, the word modulus. -/
def M32 : Nat := 4294967296

/-- 32-bit addition. -/
def add32 (a b : Nat) : Nat := (a + b) % M32

/-- 32-bit complement (input assumed < 2^32). -/
def not32 (a : Nat) : Nat := 4294967295 ^^^ a

/-- 32-bit left rotation. -/
def rotl32 (x n : Nat) : Nat := ((x <<< n) ||| (x >>> (32 - n))) % M32

/-- The 64 MD5 sine-derived constants. -/
def md5K : List Nat :=
  [0xd76aa478, 0xe8c7b756, 0x242070db, 0xc1bdceee,
   0xf57c0faf, 0x4787c62a, 0xa8304613, 0xfd469501,
   0x698098d8, 0x8b44f7af, 0xffff5bb1, 0x895cd7be,
   0x6b901122, 0xfd987193, 0xa679438e, 0x49b40821,
   0xf61e2562, 0xc040b340, 0x265e5a51, 0xe9b6c7aa,
   0xd62f105d, 0x02441453, 0xd8a1e681, 0xe7d3fbc8,
   0x21e1cde6, 0xc33707d6, 0xf4d50d87, 0x455a14ed,
   0xa9e3e905, 0xfcefa3f8, 0x676f02d9, 0x8d2a4c8a,
   0xfffa3942, 0x8771f681, 0x6d9d6122, 0xfde5380c,
   0xa4beea44, 0x4bdecfa9, 0xf6bb4b60, 0xbebfbc70,
   0x289b7ec6, 0xeaa127fa, 0xd4ef3085, 0x04881d05,
   0xd9d4d039, 0xe6db99e5, 0x1fa27cf8, 0xc4ac5665,
   0xf4292244, 0x432aff97, 0xab9423a7, 0xfc93a039,
   0x655b59c3, 0x8f0ccc92, 0xffeff47d, 0x85845dd1,
   0x6fa87e4f, 0xfe2ce6e0, 0xa3014314, 0x4e0811a1,
   0xf7537e82, 0xbd3af235, 0x2ad7d2bb, 0xeb86d391]

/-- The 64 per-round shift amounts. -/
def md5S : List Nat :=
  [7, 12, 17, 22, 7, 12, 17, 22, 7, 12, 17, 22, 7, 12, 17, 22,
   5, 9, 14, 20, 5, 9, 14, 20, 5, 9, 14, 20, 5, 9, 14, 20,
   4, 11, 16, 23, 4, 11, 16, 23, 4, 11, 16, 23, 4, 11, 16, 23,
   6, 10, 15, 21, 6, 10, 15, 21, 6, 10, 15, 21, 6, 10, 15, 21]

/-- Round function: F, G, H, I by round index. -/
def md5F (i b c d : Nat) : Nat :=
  if i < 16 then (b &&& c) ||| (not32 b &&& d)
  else if i < 32 then (d &&& b) ||| (not32 d &&& c)
  else if i < 48 then b ^^^ c ^^^ d
  else c ^^^ (b ||| not32 d)

/-- Message-word index by round index. -/
def md5G (i : Nat) : Nat :=
  if i < 16 then i
  else if i < 32 then (5 * i + 1) % 16
  else if i < 48 then (3 * i + 5) % 16
  else (7 * i) % 16

/-- Little-endian bytes (8) of a 64-bit length. -/
def le8 (n : Nat) : List Nat :=
  (List.range 8).map (fun i => (n >>> (8 * i)) % 256)

/-- Little-endian bytes (4) of a 32-bit word. -/
def le4 (n : Nat) : List Nat :=
  (List.range 4).map (fun i => (n >>> (8 * i)) % 256)

/-- MD5 padding: append 0x80, zero bytes to 56 mod 64, then the bit length
as 8 little-endian bytes. -/
def md5Pad (msg : List Nat) : List Nat :=
  let z := (120 - ((msg.length + 1) % 64)) % 64
  msg ++ [0x80] ++ List.replicate z 0 ++ le8 ((8 * msg.length) % 2 ^ 64)

/-- Split a byte list into 64-byte chunks (structural recursion on a fuel
bound that always suffices, so the kernel can evaluate it). -/
def toChunksAux : Nat → List Nat → List (List Nat)
  | 0, _ => []
  | _ + 1, [] => []
  | fuel + 1, l => l.take 64 :: toChunksAux fuel (l.drop 64)

/-- Split a byte list into 64-byte chunks. -/
def toChunks (l : List Nat) : List (List Nat) := toChunksAux l.length l

/-- The i-th little-endian 32-bit word of a 64-byte chunk. -/
def leWord (chunk : List Nat) (i : Nat) : Nat :=
  chunk.getD (4 * i) 0 + 256 * chunk.getD (4 * i + 1) 0 +
    65536 * chunk.getD (4 * i + 2) 0 + 16777216 * chunk.getD (4 * i + 3) 0

/-- One of the 64 MD5 rounds. -/
def md5Step (chunk : List Nat) (st : Nat × Nat × Nat × Nat) (i : Nat) :
    Nat × Nat × Nat × Nat :=
  let a := st.1; let b := st.2.1; let c := st.2.2.1; let d := st.2.2.2
  let f := (md5F i b c d + a + md5K.getD i 0 + leWord chunk (md5G i)) % M32
  (d, add32 b (rotl32 f (md5S.getD i 0)), b, c)

/-- Process one 64-byte chunk. -/
def md5Chunk (h : Nat × Nat × Nat × Nat) (chunk : List Nat) :
    Nat × Nat × Nat × Nat :=
  let r := (List.range 64).foldl (md5Step chunk) h
  (add32 h.1 r.1, add32 h.2.1 r.2.1, add32 h.2.2.1 r.2.2.1,
   add32 h.2.2.2 r.2.2.2)

/-- MD5 digest bytes of a byte-list message. -/
def md5Bytes (msg : List Nat) : List Nat :=
  let r := (toChunks (md5Pad msg)).foldl md5Chunk
    (0x67452301, 0xefcdab89, 0x98badcfe, 0x10325476)
  le4 r.1 ++ le4 r.2.1 ++ le4 r.2.2.1 ++ le4 r.2.2.2

/-- Lowercase hex digit. -/
def hexDigit (n : Nat) : Char :=
  if n < 10 then Char.ofNat (48 + n) else Char.ofNat (87 + n)

/-- Two lowercase hex digits of one byte. -/
def byteHex (b : Nat) : List Char := [hexDigit (b / 16), hexDigit (b % 16)]

/-- UTF-8 encoding of a character, as Python `str.encode()` uses. -/
def utf8Char (c : Char) : List Nat :=
  let n := c.toNat
  if n < 0x80 then [n]
  else if n < 0x800 then
    [0xC0 ||| (n >>> 6), 0x80 ||| (n &&& 0x3F)]
  else if n < 0x10000 then
    [0xE0 ||| (n >>> 12), 0x80 ||| ((n >>> 6) &&& 0x3F), 0x80 ||| (n &&& 0x3F)]
  else
    [0xF0 ||| (n >>> 18), 0x80 ||| ((n >>> 12) &&& 0x3F),
     0x80 ||| ((n >>> 6) &&& 0x3F), 0x80 ||| (n &&& 0x3F)]

/-- UTF-8 bytes of a string. -/
def utf8Bytes (s : String) : List Nat := (s.data.map utf8Char).flatten

/-- `hashlib.md5(s.encode()).hexdigest()`: 32 lowercase hex characters. -/
def md5hex (s : String) : String :=
  String.mk (((md5Bytes (utf8Bytes s)).map byteHex).flatten)

/-- ASCII upper-casing of one character, the effect of Python `str.upper()`
on the hex digits it is applied to here. -/
def upperChar (c : Char) : Char :=
  if 97 <= c.toNat && c.toNat <= 122 then Char.ofNat (c.toNat - 32) else c

/-- `DataMasker._generate_masked_value(original, prefix)`:
`f"{prefix}_{hashlib.md5(str(original).encode()).hexdigest()[:8].upper()}"`
(the argument is already a string, so `str(original)` is the identity). -/
def generate_masked_value (original : String) (pfx : String) : String :=
  pfx ++ "_" ++ String.mk (((md5hex original).data.take 8).map upperChar)


/-! ## Regex families of the sensitivity classifier

Each of the four source regexes (`EMAIL_PATTERN`, `PHONE_PATTERN`,
`SSN_PATTERN`, `CREDIT_CARD_PATTERN`) is a plain concatenation of
character-class repetitions, so a pattern is modelled as a list of
(class, min, max) items and matched by a backtracking matcher that is
complete for this fragment.  `re.match` with a trailing `$` is full-string
matching (up to `$` also accepting a trailing newline, which no input here
has). -/

/-- One regex item: a character class repeated between `lo` and `hi` times
(`hi = none` meaning unbounded). -/
structure ClsRep : Type where
  cls : Char → Bool
  lo : Nat
  hi : Option Nat

/-- Decrement an optional bound. -/
def decHi : Option Nat → Option Nat
  | none => none
  | some n => some (n - 1)

/-- Is the optional bound still positive (can one more character be taken)? -/
def hiPos : Option Nat → Bool
  | none => true
  | some n => decide (0 < n)

/-- Backtracking matcher for a sequence of class repetitions, structurally
recursive on a fuel bound.  With fuel exceeding `cs.length + items.length`
it decides whether the whole character list matches the whole pattern. -/
def matchRunAux : Nat → List ClsRep → List Char → Bool
  | 0, _, _ => false
  | _ + 1, [], cs => cs.isEmpty
  | fuel + 1, it :: its, cs =>
    if it.lo = 0 then
      matchRunAux fuel its cs ||
        (match cs with
         | [] => false
         | c :: rest =>
           hiPos it.hi && it.cls c &&
             matchRunAux fuel ({ it with hi := decHi it.hi } :: its) rest)
    else
      match cs with
      | [] => false
      | c :: rest =>
        it.cls c &&
          matchRunAux fuel
            ({ cls := it.cls, lo := it.lo - 1, hi := decHi it.hi } :: its) rest

/-- Full match of a character list against a pattern. -/
def matchRun (items : List ClsRep) (cs : List Char) : Bool :=
  matchRunAux (cs.length + items.length + 1) items cs

/-- `[0-9]` (also `\d`, ASCII on these inputs). -/
def isDigitC (c : Char) : Bool := 48 <= c.toNat && c.toNat <= 57

/-- `[a-zA-Z]`. -/
def isAlphaC (c : Char) : Bool :=
  (65 <= c.toNat && c.toNat <= 90) || (97 <= c.toNat && c.toNat <= 122)

/-- `\s` (ASCII whitespace). -/
def isSpaceC (c : Char) : Bool :=
  c = ' ' || c = '\t' || c = '\n' || c = '\r' || c.toNat = 11 || c.toNat = 12

/-- `[a-zA-Z0-9._%+-]`, the email local part. -/
def emailLocalC (c : Char) : Bool :=
  isAlphaC c || isDigitC c || c = '.' || c = '_' || c = '%' || c = '+' || c = '-'

/-- `[a-zA-Z0-9.-]`, the email domain part. -/
def emailDomainC (c : Char) : Bool :=
  isAlphaC c || isDigitC c || c = '.' || c = '-'

/-- `[-\s\.]`, the phone separator class. -/
def phoneSepC (c : Char) : Bool := c = '-' || isSpaceC c || c = '.'

/-- `[-\s]`, the credit-card separator class. -/
def ccSepC (c : Char) : Bool := c = '-' || isSpaceC c

/-- `EMAIL_PATTERN = r'^[a-zA-Z0-9._%+-]+@[a-zA-Z0-9.-]+\.[a-zA-Z]{2,}$'`. -/
def EMAIL_PATTERN : List ClsRep :=
  [⟨emailLocalC, 1, none⟩, ⟨fun c => c = '@', 1, some 1⟩,
   ⟨emailDomainC, 1, none⟩, ⟨fun c => c = '.', 1, some 1⟩,
   ⟨isAlphaC, 2, none⟩]

/-- `PHONE_PATTERN =
r'^[\+]?[(]?[0-9]{1,4}[)]?[-\s\.]?[(]?[0-9]{1,4}[)]?[-\s\.]?[0-9]{1,4}[-\s\.]?[0-9]{1,9}$'`. -/
def PHONE_PATTERN : List ClsRep :=
  [⟨fun c => c = '+', 0, some 1⟩, ⟨fun c => c = '(', 0, some 1⟩,
   ⟨isDigitC, 1, some 4⟩, ⟨fun c => c = ')', 0, some 1⟩,
   ⟨phoneSepC, 0, some 1⟩, ⟨fun c => c = '(', 0, some 1⟩,
   ⟨isDigitC, 1, some 4⟩, ⟨fun c => c = ')', 0, some 1⟩,
   ⟨phoneSepC, 0, some 1⟩, ⟨isDigitC, 1, some 4⟩,
   ⟨phoneSepC, 0, some 1⟩, ⟨isDigitC, 1, some 9⟩]

/-- `SSN_PATTERN = r'^\d{3}-\d{2}-\d{4}$'`. -/
def SSN_PATTERN : List ClsRep :=
  [⟨isDigitC, 3, some 3⟩, ⟨fun c => c = '-', 1, some 1⟩,
   ⟨isDigitC, 2, some 2⟩, ⟨fun c => c = '-', 1, some 1⟩,
   ⟨isDigitC, 4, some 4⟩]

/-- `CREDIT_CARD_PATTERN = r'^\d{4}[-\s]?\d{4}[-\s]?\d{4}[-\s]?\d{4}$'`. -/
def CREDIT_CARD_PATTERN : List ClsRep :=
  [⟨isDigitC, 4, some 4⟩, ⟨ccSepC, 0, some 1⟩,
   ⟨isDigitC, 4, some 4⟩, ⟨ccSepC, 0, some 1⟩,
   ⟨isDigitC, 4, some 4⟩, ⟨ccSepC, 0, some 1⟩,
   ⟨isDigitC, 4, some 4⟩]

/-! ## Sensitivity classifier -/

/-- Does `hay` start with `needle`? -/
def listStartsWith : List Char → List Char → Bool
  | [], _ => true
  | _ :: _, [] => false
  | a :: as, b :: bs => a = b && listStartsWith as bs

/-- Python `needle in hay` on strings: contiguous substring occurrence. -/
def listOccursIn (needle : List Char) : List Char → Bool
  | [] => needle.isEmpty
  | b :: rest => listStartsWith needle (b :: rest) || listOccursIn needle rest

/-- ASCII lower-casing of one character (the keywords are ASCII). -/
def lowerChar (c : Char) : Char :=
  if 65 <= c.toNat && c.toNat <= 90 then Char.ofNat (c.toNat + 32) else c

/-- `DataMasker.SENSITIVE_KEYWORDS` (insertion order of the source dict). -/
def SENSITIVE_KEYWORDS : List (String × List String) :=
  [("name", ["name", "fullname", "full_name", "first_name", "last_name",
             "firstname", "lastname", "username", "user_name"]),
   ("email", ["email", "e-mail", "mail", "email_address"]),
   ("phone", ["phone", "mobile", "telephone", "cell", "contact_number"]),
   ("id", ["ssn", "social_security", "passport", "license", "national_id",
           "nric", "ic", "id_number", "employee_id", "customer_id", "user_id"]),
   ("address", ["address", "street", "location", "residence", "postal"]),
   ("financial", ["account", "credit_card", "card_number", "bank", "iban"])]

/-- First category whose keyword list has a substring hit. -/
def findCategory (colLower : List Char) :
    List (String × List String) → Bool × String
  | [] => (false, "")
  | (cat, kws) :: rest =>
    if kws.any (fun kw => listOccursIn kw.data colLower) then (true, cat)
    else findCategory colLower rest

/-- `DataMasker._check_column_name`: lower-case, spaces to underscores, then
first matching keyword category. -/
def check_column_name (column_name : String) : Bool × String :=
  let colLower := column_name.data.map
    (fun c => if lowerChar c = ' ' then '_' else lowerChar c)
  findCategory colLower SENSITIVE_KEYWORDS

/-- Python `val.replace(' ', '')`. -/
def stripSpaces (v : String) : String :=
  String.mk (v.data.filter (fun c => c != ' '))

/-- `DataMasker._check_data_patterns` with the default `sample_size = 100`
(the only call site uses the default): take up to 100 non-null stringified
values and test the four regex families in order, returning at the first
family whose match fraction exceeds 0.7 (modelled exactly as
`10 * matches > 7 * sample_size`). -/
def check_data_patterns (series : List Cell) : Bool × String :=
  let sample := ((series.filter (fun c => c ≠ Cell.null)).map Cell.strRep).take 100
  if sample.length = 0 then (false, "")
  else
    let n := sample.length
    let email_matches :=
      (sample.filter (fun v => matchRun EMAIL_PATTERN v.data)).length
    if 10 * email_matches > 7 * n then (true, "email_pattern")
    else
      let phone_matches :=
        (sample.filter (fun v => matchRun PHONE_PATTERN v.data)).length
      if 10 * phone_matches > 7 * n then (true, "phone_pattern")
      else
        let ssn_matches :=
          (sample.filter (fun v => matchRun SSN_PATTERN v.data)).length
        if 10 * ssn_matches > 7 * n then (true, "ssn_pattern")
        else
          let cc_matches :=
            (sample.filter
              (fun v => matchRun CREDIT_CARD_PATTERN (stripSpaces v).data)).length
          if 10 * cc_matches > 7 * n then (true, "credit_card_pattern")
          else (false, "")

/-- Distinct values in order of first appearance (`pandas.unique`), with an
accumulator of already-seen values. -/
def uniqueVals : List Cell → List Cell → List Cell
  | [], _ => []
  | c :: rest, seen =>
    if seen.contains c then uniqueVals rest seen
    else c :: uniqueVals rest (c :: seen)

/-- `series.dropna().unique()`. -/
def uniqueNonNull (cells : List Cell) : List Cell :=
  uniqueVals (cells.filter (fun c => c ≠ Cell.null)) []

/-- `series.nunique()`: number of distinct non-null values. -/
def nunique (series : List Cell) : Nat := (uniqueNonNull series).length

/-- `DataMasker._check_high_cardinality` with the default `threshold = 0.8`:
distinct count over total length, strictly above 0.8 (modelled exactly as
`5 * nunique > 4 * length`). -/
def check_high_cardinality (series : List Cell) : Bool :=
  if series.length = 0 then false
  else 5 * nunique series > 4 * series.length

/-- `df[col].dtype == 'object'` for a column of scalar cells: pandas infers
the `object` dtype exactly when some cell is a Python string (an all-numeric
or numeric-with-missing column is int64/float64). -/
def isObjectDtype (cells : List Cell) : Bool :=
  cells.any (fun c => match c with | Cell.str _ => true | _ => false)

/-- The dictionary `auto_detect_sensitive_columns` builds. -/
structure DetectionResult : Type where
  by_name : List String
  by_pattern : List String
  by_cardinality : List String
  all_detected : List String
  reasons : List (String × List String)
deriving DecidableEq, Repr

/-- One loop iteration of `auto_detect_sensitive_columns` for column `col`:
name heuristic, then (for object-dtype columns) pattern and cardinality
heuristics, then the `all_detected`/`reasons` bookkeeping.  The reason
string for high uniqueness uses `len(df)`, the row count, which equals the
column length. -/
def auto_detect_step (acc : DetectionResult) (col : String)
    (cells : List Cell) : DetectionResult :=
  let nameRes := check_column_name col
  let acc1 :=
    if nameRes.1 then { acc with by_name := acc.by_name ++ [col] } else acc
  let rs1 : List String :=
    if nameRes.1 then ["name keyword (" ++ nameRes.2 ++ ")"] else []
  let patRes :=
    if isObjectDtype cells then check_data_patterns cells else (false, "")
  let acc2 :=
    if isObjectDtype cells && patRes.1 then
      { acc1 with by_pattern := acc1.by_pattern ++ [col] }
    else acc1
  let rs2 := rs1 ++
    (if isObjectDtype cells && patRes.1 then
      ["data pattern (" ++ patRes.2 ++ ")"]
    else [])
  let cardHit := isObjectDtype cells && check_high_cardinality cells
  let acc3 :=
    if cardHit then { acc2 with by_cardinality := acc2.by_cardinality ++ [col] }
    else acc2
  let rs3 := rs2 ++
    (if cardHit then
      ["high uniqueness (" ++ toString (nunique cells) ++ "/" ++
        toString cells.length ++ " unique)"]
    else [])
  if !rs3.isEmpty && !(acc3.all_detected.contains col) then
    { acc3 with all_detected := acc3.all_detected ++ [col],
                reasons := dinsert acc3.reasons col rs3 }
  else acc3

/-- `DataMasker.auto_detect_sensitive_columns`. -/
def auto_detect_sensitive_columns (df : DataFrame) : DetectionResult :=
  df.foldl (fun acc p => auto_detect_step acc p.1 p.2) ⟨[], [], [], [], []⟩

/-! ## Mapping store and the masking / unmasking transforms -/

/-- The in-memory state of a `DataMasker`: the forward mapping store, the
derived reverse index, and the persisted document (`masking_map.json`)
content, `none` when no file has been written. -/
structure MaskerState : Type where
  mapping : List (String × List (String × String))
  reverse_mapping : List (String × List (String × String))
  saved : Option (List (String × List (String × String)))
deriving DecidableEq, Repr

/-- `self.mapping[col]` (guaranteed present at every use site by the
`if col not in self.mapping` guard). -/
def getColMap (m : List (String × List (String × String))) (col : String) :
    List (String × String) :=
  (alookup m col).getD []

/-- Update the dictionary stored at key `col` in place. -/
def modifyCol (m : List (String × List (String × String))) (col : String)
    (f : List (String × String) → List (String × String)) :
    List (String × List (String × String)) :=
  m.map (fun p => if p.1 = col then (p.1, f p.2) else p)

/-- The `if col not in self.mapping: self.mapping[col] = {};
self.reverse_mapping[col] = {}` step of `mask_dataframe`. -/
def ensureCol (st : MaskerState) (col : String) : MaskerState :=
  if acontains st.mapping col then st
  else { st with mapping := dinsert st.mapping col [],
                 reverse_mapping := dinsert st.reverse_mapping col [] }

/-- The `for original_value in unique_values` loop of `mask_dataframe`:
get-or-create an entry for each distinct non-null value's string form. -/
def processValues (col pfx : String) : List Cell → MaskerState → MaskerState
  | [], st => st
  | v :: rest, st =>
    let oStr := v.strRep
    if acontains (getColMap st.mapping col) oStr then
      processValues col pfx rest st
    else
      let t := generate_masked_value oStr pfx
      processValues col pfx rest
        { st with
          mapping := modifyCol st.mapping col (fun m => dinsert m oStr t),
          reverse_mapping :=
            modifyCol st.reverse_mapping col (fun m => dinsert m t oStr) }

/-- The cell substitution
`lambda x: self.mapping[col].get(str(x), x) if pd.notna(x) else x`. -/
def maskCell (m : List (String × String)) : Cell → Cell
  | Cell.null => Cell.null
  | x =>
    match alookup m x.strRep with
    | some t => Cell.str t
    | none => x

/-- Replace the cells of an existing column (`df_masked[col] = ...`). -/
def setCol (df : DataFrame) (col : String) (cells : List Cell) : DataFrame :=
  df.map (fun p => if p.1 = col then (p.1, cells) else p)

/-- The `for col in columns_to_mask` loop of `mask_dataframe`.  A requested
column missing from the dataframe raises `KeyError` at `df_masked[col]`,
after the `ensureCol` store mutation, aborting the loop: the pair returns
the Python exception outcome together with the mutated masker state. -/
def maskLoop (pfx : String) :
    List String → DataFrame → MaskerState → Except Unit DataFrame × MaskerState
  | [], df, st => (Except.ok df, st)
  | col :: rest, df, st =>
    let st1 := ensureCol st col
    match alookup df col with
    | none => (Except.error (), st1)
    | some cells =>
      let st2 := processValues col pfx (uniqueNonNull cells) st1
      let df2 := setCol df col (cells.map (maskCell (getColMap st2.mapping col)))
      maskLoop pfx rest df2 st2

/-- `DataMasker.mask_dataframe(df, columns_to_mask, prefix)`: run the
column loop on a copy of the dataframe; on success `_save_mapping()` writes
the mapping to the persisted document. -/
def mask_dataframe (df : DataFrame) (columns_to_mask : List String)
    (pfx : String) (st : MaskerState) : Except Unit DataFrame × MaskerState :=
  match maskLoop pfx columns_to_mask df st with
  | (Except.ok d, st') => (Except.ok d, { st' with saved := some st'.mapping })
  | (Except.error e, st') => (Except.error e, st')

/-- Decidable equality of masking outcomes, so concrete runs can be checked
by `decide`. -/
instance : DecidableEq (Except Unit DataFrame) := fun a b => by
  cases a with
  | ok x =>
    cases b with
    | ok y =>
      exact match decEq x y with
        | isTrue h => isTrue (by rw [h])
        | isFalse h => isFalse (fun he => h (by injection he))
    | error y => exact isFalse (fun he => by injection he)
  | error x =>
    cases b with
    | ok y => exact isFalse (fun he => by injection he)
    | error y => exact isTrue (by cases x; cases y; rfl)

/-- The cell substitution
`lambda x: self.reverse_mapping[col].get(str(x), x) if pd.notna(x) else x`. -/
def unmaskCell (m : List (String × String)) : Cell → Cell
  | Cell.null => Cell.null
  | x =>
    match alookup m x.strRep with
    | some o => Cell.str o
    | none => x

/-- One iteration of the `for col in columns_to_unmask` loop of
`unmask_dataframe`: the column is replaced only when it is present both in
the reverse index and in the dataframe (`if col in self.reverse_mapping and
col in df_unmasked.columns`), else silently skipped. -/
def unmaskStep (st : MaskerState) (d : DataFrame) (col : String) : DataFrame :=
  if acontains st.reverse_mapping col && acontains d col then
    setCol d col
      (((alookup d col).getD []).map
        (unmaskCell (getColMap st.reverse_mapping col)))
  else d

/-- `DataMasker.unmask_dataframe(df, columns_to_unmask)`: `None` selects
every column of the reverse index; a column absent from the reverse index
or from the dataframe is silently skipped.  The store is never mutated. -/
def unmask_dataframe (df : DataFrame) (columns_to_unmask : Option (List String))
    (st : MaskerState) : DataFrame :=
  let cols := match columns_to_unmask with
    | some cs => cs
    | none => st.reverse_mapping.map Prod.fst
  cols.foldl (unmaskStep st) df

/-! ## Helper lemmas: association lists -/

theorem alookup_append_isSome {α : Type} (l1 l2 : List (String × α)) (k : String)
    (h : (alookup l1 k).isSome) : alookup (l1 ++ l2) k = alookup l1 k := by
  induction l1 with
  | nil => simp [alookup] at h
  | cons p rest ih =>
    simp only [List.cons_append, alookup]
    split
    · rfl
    · apply ih
      simpa [alookup, *] using h

theorem alookup_append_none {α : Type} (l1 l2 : List (String × α)) (k : String)
    (h : alookup l1 k = none) : alookup (l1 ++ l2) k = alookup l2 k := by
  induction l1 with
  | nil => rfl
  | cons p rest ih =>
    simp only [alookup] at h
    simp only [List.cons_append, alookup]
    split
    · simp [*] at h
    · exact ih (by simpa [alookup, *] using h)

theorem alookup_mem {α : Type} (l : List (String × α)) (k : String) (v : α)
    (h : alookup l k = some v) : (k, v) ∈ l := by
  induction l with
  | nil => simp [alookup] at h
  | cons p rest ih =>
    obtain ⟨a, b⟩ := p
    simp only [alookup] at h
    by_cases hk : a = k
    · rw [if_pos hk] at h
      injection h with hb
      subst hk hb
      exact List.mem_cons_self _ _
    · rw [if_neg hk] at h
      exact List.mem_cons_of_mem _ (ih h)

theorem dinsert_not_contains {α : Type} (l : List (String × α)) (k : String)
    (v : α) (h : acontains l k = false) : dinsert l k v = l ++ [(k, v)] := by
  simp [dinsert, h]

theorem acontains_append {α : Type} (l1 l2 : List (String × α)) (k : String) :
    acontains (l1 ++ l2) k = (acontains l1 k || acontains l2 k) := by
  unfold acontains
  cases h : alookup l1 k with
  | some v => simp [alookup_append_isSome l1 l2 k (by simp [h]), h]
  | none => simp [alookup_append_none l1 l2 k h, h]

theorem alookup_swap_notmem (l : List (String × String)) (t : String)
    (h : t ∉ l.map Prod.snd) : alookup (l.map Prod.swap) t = none := by
  induction l with
  | nil => rfl
  | cons p rest ih =>
    simp only [List.map_cons, alookup, Prod.swap]
    split
    · exact absurd (by simp_all) h
    · exact ih (by simp_all)

theorem alookup_map_swap (l : List (String × String)) (k t : String)
    (hl : alookup l k = some t) (hnd : (l.map Prod.snd).Nodup) :
    alookup (l.map Prod.swap) t = some k := by
  induction l with
  | nil => simp [alookup] at hl
  | cons p rest ih =>
    obtain ⟨a, b⟩ := p
    simp only [List.map_cons, List.nodup_cons] at hnd
    simp only [alookup] at hl
    simp only [List.map_cons, Prod.swap, alookup]
    by_cases hk : a = k
    · rw [if_pos hk] at hl
      injection hl with hb
      subst hk hb
      simp
    · rw [if_neg hk] at hl
      have ht : b ≠ t := by
        intro he
        exact hnd.1 (he ▸ List.mem_map_of_mem Prod.snd (alookup_mem rest k t hl))
      rw [if_neg ht]
      exact ih hl hnd.2

/-! ## Helper lemmas: store access and column update -/

theorem alookup_cons {α : Type} (a : String) (v : α) (l : List (String × α))
    (c : String) :
    alookup ((a, v) :: l) c = if a = c then some v else alookup l c := rfl

theorem modifyCol_cons (a : String) (b : List (String × String))
    (rest : List (String × List (String × String))) (col : String)
    (f : List (String × String) → List (String × String)) :
    modifyCol ((a, b) :: rest) col f =
      (if a = col then (a, f b) else (a, b)) :: modifyCol rest col f := by
  by_cases h : a = col
  · simp only [modifyCol, List.map_cons, if_pos h]
  · simp only [modifyCol, List.map_cons, if_neg h]

theorem alookup_modifyCol (m : List (String × List (String × String)))
    (col : String) (f : List (String × String) → List (String × String))
    (c : String) :
    alookup (modifyCol m col f) c =
      if c = col then (alookup m c).map f else alookup m c := by
  induction m with
  | nil =>
    simp only [modifyCol, List.map_nil]
    cases h : decide (c = col) <;> simp_all [alookup]
  | cons p rest ih =>
    obtain ⟨a, b⟩ := p
    rw [modifyCol_cons]
    by_cases hacol : a = col
    · rw [if_pos hacol, alookup_cons, alookup_cons]
      by_cases hac : a = c
      · subst hac
        rw [if_pos rfl, if_pos rfl, if_pos hacol]
        rfl
      · rw [if_neg hac, if_neg hac, ih]
    · rw [if_neg hacol, alookup_cons, alookup_cons]
      by_cases hac : a = c
      · subst hac
        rw [if_pos rfl, if_pos rfl, if_neg hacol]
      · rw [if_neg hac, if_neg hac, ih]

theorem getColMap_modifyCol_self (m : List (String × List (String × String)))
    (col : String) (f : List (String × String) → List (String × String))
    (h : acontains m col = true) :
    getColMap (modifyCol m col f) col = f (getColMap m col) := by
  unfold getColMap
  rw [alookup_modifyCol, if_pos rfl]
  unfold acontains at h
  cases hm : alookup m col with
  | none => rw [hm] at h; simp at h
  | some v => simp [hm]

theorem getColMap_modifyCol_ne (m : List (String × List (String × String)))
    (col : String) (f : List (String × String) → List (String × String))
    (c : String) (h : c ≠ col) :
    getColMap (modifyCol m col f) c = getColMap m c := by
  unfold getColMap
  rw [alookup_modifyCol, if_neg h]

theorem acontains_modifyCol (m : List (String × List (String × String)))
    (col : String) (f : List (String × String) → List (String × String))
    (c : String) : acontains (modifyCol m col f) c = acontains m c := by
  unfold acontains
  rw [alookup_modifyCol]
  by_cases hc : c = col
  · rw [if_pos hc]
    cases alookup m c <;> simp
  · rw [if_neg hc]

theorem getColMap_dinsert_new (m : List (String × List (String × String)))
    (col : String) (h : acontains m col = false) (v : List (String × String))
    (c : String) :
    getColMap (dinsert m col v) c = if c = col then v else getColMap m c := by
  rw [dinsert_not_contains m col v h]
  unfold getColMap
  by_cases hc : c = col
  · subst hc
    unfold acontains at h
    cases hm : alookup m c with
    | some w => rw [hm] at h; simp at h
    | none => rw [alookup_append_none m _ c hm]; simp [alookup]
  · rw [if_neg hc]
    cases hm : alookup m c with
    | some w => rw [alookup_append_isSome m _ c (by simp [hm]), hm]
    | none =>
      rw [alookup_append_none m _ c hm]
      rw [alookup_cons, if_neg (Ne.symm hc)]
      rfl

/-! ## Helper lemmas: column replacement, unique values, cell substitution -/

theorem alookup_mapUpd {β : Type} (m : List (String × β)) (col : String)
    (f : β → β) (c : String) :
    alookup (m.map (fun p => if p.1 = col then (p.1, f p.2) else p)) c =
      if c = col then (alookup m c).map f else alookup m c := by
  induction m with
  | nil =>
    simp only [List.map_nil]
    cases h : decide (c = col) <;> simp_all [alookup]
  | cons p rest ih =>
    obtain ⟨a, b⟩ := p
    have hcons : ((a, b) :: rest).map (fun p => if p.1 = col then (p.1, f p.2) else p) =
        (if a = col then (a, f b) else (a, b)) ::
          rest.map (fun p => if p.1 = col then (p.1, f p.2) else p) := by
      by_cases h : a = col
      · simp only [List.map_cons, if_pos h]
      · simp only [List.map_cons, if_neg h]
    rw [hcons]
    by_cases hacol : a = col
    · rw [if_pos hacol, alookup_cons, alookup_cons]
      by_cases hac : a = c
      · subst hac
        rw [if_pos rfl, if_pos rfl, if_pos hacol]
        rfl
      · rw [if_neg hac, if_neg hac, ih]
    · rw [if_neg hacol, alookup_cons, alookup_cons]
      by_cases hac : a = c
      · subst hac
        rw [if_pos rfl, if_pos rfl, if_neg hacol]
      · rw [if_neg hac, if_neg hac, ih]

theorem alookup_setCol (df : DataFrame) (col : String) (cells : List Cell)
    (c : String) :
    alookup (setCol df col cells) c =
      if c = col then (alookup df c).map (fun _ => cells) else alookup df c :=
  alookup_mapUpd df col (fun _ => cells) c

theorem alookup_setCol_ne (df : DataFrame) (col : String) (cells : List Cell)
    (c : String) (h : c ≠ col) : alookup (setCol df col cells) c = alookup df c := by
  rw [alookup_setCol, if_neg h]

theorem alookup_setCol_self (df : DataFrame) (col : String) (cells x : List Cell)
    (h : alookup df col = some x) :
    alookup (setCol df col cells) col = some cells := by
  rw [alookup_setCol, if_pos rfl, h]
  rfl

theorem isSome_setCol (df : DataFrame) (col : String) (cells : List Cell)
    (c : String) :
    (alookup (setCol df col cells) c).isSome = (alookup df c).isSome := by
  rw [alookup_setCol]
  by_cases hc : c = col
  · rw [if_pos hc]
    cases alookup df c <;> rfl
  · rw [if_neg hc]

theorem uniqueVals_sub (l seen : List Cell) (x : Cell)
    (h : x ∈ uniqueVals l seen) : x ∈ l := by
  induction l generalizing seen with
  | nil => simp [uniqueVals] at h
  | cons c rest ih =>
    simp only [uniqueVals] at h
    by_cases hc : seen.contains c
    · rw [if_pos hc] at h
      exact List.mem_cons_of_mem _ (ih seen h)
    · rw [if_neg hc] at h
      rcases List.mem_cons.mp h with h | h
      · exact h ▸ List.mem_cons_self _ _
      · exact List.mem_cons_of_mem _ (ih (c :: seen) h)

theorem uniqueVals_mem (l seen : List Cell) (x : Cell)
    (hx : x ∈ l) (hs : ¬ seen.contains x) : x ∈ uniqueVals l seen := by
  induction l generalizing seen with
  | nil => simp at hx
  | cons c rest ih =>
    simp only [uniqueVals]
    by_cases hc : seen.contains c
    · rw [if_pos hc]
      rcases List.mem_cons.mp hx with h | h
      · exact absurd (h ▸ hc) hs
      · exact ih seen h hs
    · rw [if_neg hc]
      by_cases hxc : x = c
      · exact hxc ▸ List.mem_cons_self _ _
      · rcases List.mem_cons.mp hx with h | h
        · exact absurd h hxc
        · refine List.mem_cons_of_mem _ (ih (c :: seen) h ?_)
          simp only [List.contains_cons, Bool.or_eq_true]
          push_neg
          exact ⟨by simpa using hxc, hs⟩

theorem mem_uniqueNonNull (cells : List Cell) (x : Cell)
    (hx : x ∈ cells) (hn : x ≠ Cell.null) : x ∈ uniqueNonNull cells := by
  apply uniqueVals_mem
  · exact List.mem_filter.mpr ⟨hx, by simpa using hn⟩
  · simp

theorem uniqueNonNull_sub (cells : List Cell) (x : Cell)
    (h : x ∈ uniqueNonNull cells) : x ∈ cells ∧ x ≠ Cell.null := by
  have := uniqueVals_sub _ _ _ h
  have h2 := List.mem_filter.mp this
  exact ⟨h2.1, by simpa using h2.2⟩

theorem maskCell_null (m : List (String × String)) :
    maskCell m Cell.null = Cell.null := rfl

theorem maskCell_nonnull (m : List (String × String)) (x : Cell)
    (h : x ≠ Cell.null) :
    maskCell m x = (match alookup m x.strRep with
      | some t => Cell.str t
      | none => x) := by
  cases x with
  | null => exact absurd rfl h
  | str s => rfl
  | num n => rfl

theorem unmaskCell_null (m : List (String × String)) :
    unmaskCell m Cell.null = Cell.null := rfl

theorem unmaskCell_nonnull (m : List (String × String)) (x : Cell)
    (h : x ≠ Cell.null) :
    unmaskCell m x = (match alookup m x.strRep with
      | some o => Cell.str o
      | none => x) := by
  cases x with
  | null => exact absurd rfl h
  | str s => rfl
  | num n => rfl

/-! ## The entries a single column loop appends to a column mapping -/

/-- The forward entries the `for original_value in unique_values` loop of
`mask_dataframe` appends to a column mapping `m`: one get-or-create entry
per value whose string form is not yet a key. -/
def newEntries (pfx : String) : List Cell → List (String × String) →
    List (String × String)
  | [], _ => []
  | v :: rest, m =>
    if acontains m v.strRep then newEntries pfx rest m
    else (v.strRep, generate_masked_value v.strRep pfx) ::
      newEntries pfx rest (m ++ [(v.strRep, generate_masked_value v.strRep pfx)])

theorem newEntries_nil_of_all_present (pfx : String) (vals : List Cell)
    (m : List (String × String))
    (h : ∀ v ∈ vals, acontains m v.strRep = true) :
    newEntries pfx vals m = [] := by
  induction vals with
  | nil => rfl
  | cons v rest ih =>
    simp only [newEntries]
    rw [if_pos (h v (List.mem_cons_self _ _))]
    exact ih (fun w hw => h w (List.mem_cons_of_mem _ hw))

theorem newEntries_src (pfx : String) (vals : List Cell)
    (m : List (String × String)) (p : String × String)
    (hp : p ∈ newEntries pfx vals m) : ∃ v ∈ vals, p.1 = v.strRep := by
  induction vals generalizing m with
  | nil => simp [newEntries] at hp
  | cons v rest ih =>
    simp only [newEntries] at hp
    by_cases hc : acontains m v.strRep
    · rw [if_pos hc] at hp
      obtain ⟨w, hw, he⟩ := ih m hp
      exact ⟨w, List.mem_cons_of_mem _ hw, he⟩
    · rw [if_neg (by simpa using hc)] at hp
      rcases List.mem_cons.mp hp with h | h
      · exact ⟨v, List.mem_cons_self _ _, by rw [h]⟩
      · obtain ⟨w, hw, he⟩ := ih _ h
        exact ⟨w, List.mem_cons_of_mem _ hw, he⟩

theorem newEntries_mem (pfx : String) (vals : List Cell)
    (m : List (String × String)) (v : Cell) (hv : v ∈ vals) :
    acontains (m ++ newEntries pfx vals m) v.strRep = true := by
  induction vals generalizing m with
  | nil => simp at hv
  | cons w rest ih =>
    simp only [newEntries]
    by_cases hc : acontains m w.strRep
    · rw [if_pos hc]
      rcases List.mem_cons.mp hv with h | h
      · rw [acontains_append, h, hc]
        rfl
      · exact ih m h
    · rw [if_neg (by simpa using hc)]
      rcases List.mem_cons.mp hv with h | h
      · subst h
        rw [acontains_append]
        unfold acontains at hc ⊢
        cases hm : alookup m v.strRep with
        | some t => rw [hm] at hc; simp at hc
        | none => simp [alookup_cons]
      · have := ih (m ++ [(w.strRep, generate_masked_value w.strRep pfx)]) h
        rw [List.append_assoc] at this
        exact this

/-! ## Helper lemmas: dict insertion, `ensureCol`, `processValues` -/

theorem alookup_dinsert_self {α : Type} (l : List (String × α)) (k : String)
    (v : α) : alookup (dinsert l k v) k = some v := by
  unfold dinsert
  by_cases hc : acontains l k
  · rw [if_pos hc]
    have := alookup_mapUpd l k (fun _ => v) k
    rw [if_pos rfl] at this
    rw [this]
    unfold acontains at hc
    cases hm : alookup l k with
    | some w => rfl
    | none => rw [hm] at hc; simp at hc
  · rw [if_neg hc]
    unfold acontains at hc
    cases hm : alookup l k with
    | some w => rw [hm] at hc; simp at hc
    | none =>
      rw [alookup_append_none l _ k hm, alookup_cons, if_pos rfl]

theorem alookup_dinsert_ne {α : Type} (l : List (String × α)) (k : String)
    (v : α) (c : String) (h : c ≠ k) :
    alookup (dinsert l k v) c = alookup l c := by
  unfold dinsert
  by_cases hc : acontains l k
  · rw [if_pos hc]
    have := alookup_mapUpd l k (fun _ => v) c
    rw [if_neg h] at this
    exact this
  · rw [if_neg hc]
    cases hm : alookup l c with
    | some w => rw [alookup_append_isSome l _ c (by simp [hm]), hm]
    | none =>
      rw [alookup_append_none l _ c hm, alookup_cons, if_neg (Ne.symm h)]
      rfl

/-- Consistency of a masker state: the reverse index has the same column
keys as the forward store and each reverse column is the pairwise swap of
the forward column.  This is what loading a store from the persisted
document establishes, and what every masking step preserves while tokens
stay collision-free. -/
def StoreConsistent (st : MaskerState) : Prop :=
  (∀ c, acontains st.reverse_mapping c = acontains st.mapping c) ∧
  (∀ c, getColMap st.reverse_mapping c = (getColMap st.mapping c).map Prod.swap)

theorem ensureCol_saved (st : MaskerState) (col : String) :
    (ensureCol st col).saved = st.saved := by
  unfold ensureCol
  split <;> rfl

theorem ensureCol_getColMap (st : MaskerState) (col c : String) :
    getColMap (ensureCol st col).mapping c = getColMap st.mapping c := by
  unfold ensureCol
  by_cases hc : acontains st.mapping col
  · rw [if_pos hc]
  · rw [if_neg hc]
    show getColMap (dinsert st.mapping col []) c = _
    rw [getColMap_dinsert_new st.mapping col (by simpa using hc) [] c]
    by_cases hcc : c = col
    · subst hcc
      unfold acontains at hc
      unfold getColMap
      cases hm : alookup st.mapping c with
      | some w => rw [hm] at hc; simp at hc
      | none => simp
    · rw [if_neg hcc]

theorem ensureCol_acontains_self (st : MaskerState) (col : String) :
    acontains (ensureCol st col).mapping col = true := by
  unfold ensureCol
  by_cases hc : acontains st.mapping col
  · rw [if_pos hc]
    exact hc
  · rw [if_neg hc]
    show acontains (dinsert st.mapping col []) col = true
    unfold acontains
    rw [alookup_dinsert_self]
    rfl

theorem ensureCol_acontains_mono (st : MaskerState) (col c : String)
    (h : acontains st.mapping c = true) :
    acontains (ensureCol st col).mapping c = true := by
  unfold ensureCol
  by_cases hc : acontains st.mapping col
  · rw [if_pos hc]
    exact h
  · rw [if_neg hc]
    show acontains (dinsert st.mapping col []) c = true
    by_cases hcc : c = col
    · subst hcc
      unfold acontains
      rw [alookup_dinsert_self]
      rfl
    · unfold acontains
      rw [alookup_dinsert_ne _ _ _ _ hcc]
      exact h

theorem ensureCol_consistent (st : MaskerState) (col : String)
    (h : StoreConsistent st) : StoreConsistent (ensureCol st col) := by
  unfold ensureCol
  by_cases hc : acontains st.mapping col
  · rw [if_pos hc]
    exact h
  · rw [if_neg hc]
    constructor
    · intro c
      show acontains (dinsert st.reverse_mapping col []) c =
        acontains (dinsert st.mapping col []) c
      by_cases hcc : c = col
      · subst hcc
        unfold acontains
        rw [alookup_dinsert_self, alookup_dinsert_self]
      · unfold acontains
        rw [alookup_dinsert_ne _ _ _ _ hcc, alookup_dinsert_ne _ _ _ _ hcc]
        exact h.1 c
    · intro c
      show getColMap (dinsert st.reverse_mapping col []) c =
        (getColMap (dinsert st.mapping col []) c).map Prod.swap
      by_cases hcc : c = col
      · subst hcc
        unfold getColMap
        rw [alookup_dinsert_self, alookup_dinsert_self]
        rfl
      · unfold getColMap
        rw [alookup_dinsert_ne _ _ _ _ hcc, alookup_dinsert_ne _ _ _ _ hcc]
        exact h.2 c

theorem processValues_saved (col pfx : String) (vals : List Cell)
    (st : MaskerState) : (processValues col pfx vals st).saved = st.saved := by
  induction vals generalizing st with
  | nil => rfl
  | cons v rest ih =>
    simp only [processValues]
    by_cases hc : acontains (getColMap st.mapping col) v.strRep
    · rw [if_pos hc]
      exact ih st
    · rw [if_neg hc]
      exact ih _

theorem processValues_acontains (col pfx : String) (vals : List Cell)
    (st : MaskerState) (c : String) :
    acontains (processValues col pfx vals st).mapping c =
      acontains st.mapping c := by
  induction vals generalizing st with
  | nil => rfl
  | cons v rest ih =>
    simp only [processValues]
    by_cases hc : acontains (getColMap st.mapping col) v.strRep
    · rw [if_pos hc]
      exact ih st
    · rw [if_neg hc]
      rw [ih _]
      dsimp only
      exact acontains_modifyCol _ _ _ _

theorem processValues_acontains_rev (col pfx : String) (vals : List Cell)
    (st : MaskerState) (c : String) :
    acontains (processValues col pfx vals st).reverse_mapping c =
      acontains st.reverse_mapping c := by
  induction vals generalizing st with
  | nil => rfl
  | cons v rest ih =>
    simp only [processValues]
    by_cases hc : acontains (getColMap st.mapping col) v.strRep
    · rw [if_pos hc]
      exact ih st
    · rw [if_neg hc]
      rw [ih _]
      dsimp only
      exact acontains_modifyCol _ _ _ _

theorem processValues_mapping_ne (col pfx : String) (vals : List Cell)
    (st : MaskerState) (c : String) (hc : c ≠ col) :
    getColMap (processValues col pfx vals st).mapping c =
      getColMap st.mapping c := by
  induction vals generalizing st with
  | nil => rfl
  | cons v rest ih =>
    simp only [processValues]
    by_cases hp : acontains (getColMap st.mapping col) v.strRep
    · rw [if_pos hp]
      exact ih st
    · rw [if_neg hp]
      rw [ih _]
      dsimp only
      exact getColMap_modifyCol_ne _ _ _ _ hc

theorem processValues_rev_ne (col pfx : String) (vals : List Cell)
    (st : MaskerState) (c : String) (hc : c ≠ col) :
    getColMap (processValues col pfx vals st).reverse_mapping c =
      getColMap st.reverse_mapping c := by
  induction vals generalizing st with
  | nil => rfl
  | cons v rest ih =>
    simp only [processValues]
    by_cases hp : acontains (getColMap st.mapping col) v.strRep
    · rw [if_pos hp]
      exact ih st
    · rw [if_neg hp]
      rw [ih _]
      dsimp only
      exact getColMap_modifyCol_ne _ _ _ _ hc

theorem processValues_mapping_self (col pfx : String) (vals : List Cell)
    (st : MaskerState) (hcol : acontains st.mapping col = true) :
    getColMap (processValues col pfx vals st).mapping col =
      getColMap st.mapping col ++
        newEntries pfx vals (getColMap st.mapping col) := by
  induction vals generalizing st with
  | nil => simp [processValues, newEntries]
  | cons v rest ih =>
    simp only [processValues, newEntries]
    by_cases hp : acontains (getColMap st.mapping col) v.strRep
    · rw [if_pos hp, if_pos hp]
      exact ih st hcol
    · rw [if_neg hp, if_neg hp]
      set st' : MaskerState :=
        { st with
          mapping := modifyCol st.mapping col
            (fun m => dinsert m v.strRep
              (generate_masked_value v.strRep pfx)),
          reverse_mapping := modifyCol st.reverse_mapping col
            (fun m => dinsert m (generate_masked_value v.strRep pfx)
              v.strRep) } with hst'
      have hmap : getColMap st'.mapping col =
          getColMap st.mapping col ++
            [(v.strRep, generate_masked_value v.strRep pfx)] := by
        rw [hst']
        dsimp only
        rw [getColMap_modifyCol_self _ _ _ hcol]
        exact dinsert_not_contains _ _ _ (by simpa using hp)
      have hcol' : acontains st'.mapping col = true := by
        rw [hst']
        dsimp only
        rw [acontains_modifyCol]
        exact hcol
      rw [ih st' hcol', hmap]
      simp [List.append_assoc]

theorem newEntries_cons_present (pfx : String) (v : Cell) (rest : List Cell)
    (m : List (String × String)) (h : acontains m v.strRep = true) :
    newEntries pfx (v :: rest) m = newEntries pfx rest m := by
  simp only [newEntries]
  rw [if_pos h]

theorem newEntries_cons_absent (pfx : String) (v : Cell) (rest : List Cell)
    (m : List (String × String)) (h : acontains m v.strRep = false) :
    newEntries pfx (v :: rest) m =
      (v.strRep, generate_masked_value v.strRep pfx) ::
        newEntries pfx rest
          (m ++ [(v.strRep, generate_masked_value v.strRep pfx)]) := by
  simp only [newEntries]
  rw [if_neg (by simp [h])]

theorem processValues_consistent (col pfx : String) (vals : List Cell)
    (st : MaskerState) (hcons : StoreConsistent st)
    (hcol : acontains st.mapping col = true)
    (hnd : ((getColMap st.mapping col ++
      newEntries pfx vals (getColMap st.mapping col)).map Prod.snd).Nodup) :
    StoreConsistent (processValues col pfx vals st) := by
  induction vals generalizing st with
  | nil => exact hcons
  | cons v rest ih =>
    simp only [processValues]
    by_cases hp : acontains (getColMap st.mapping col) v.strRep
    · rw [if_pos hp]
      rw [newEntries_cons_present pfx v rest _ hp] at hnd
      exact ih st hcons hcol hnd
    · rw [if_neg hp]
      rw [newEntries_cons_absent pfx v rest _ (by simpa using hp)] at hnd
      set t := generate_masked_value v.strRep pfx with ht
      set st' : MaskerState :=
        { st with
          mapping := modifyCol st.mapping col
            (fun m => dinsert m v.strRep t),
          reverse_mapping := modifyCol st.reverse_mapping col
            (fun m => dinsert m t v.strRep) } with hst'
      have hmap' : getColMap st'.mapping col =
          getColMap st.mapping col ++ [(v.strRep, t)] := by
        rw [hst']
        dsimp only
        rw [getColMap_modifyCol_self _ _ _ hcol]
        exact dinsert_not_contains _ _ _ (by simpa using hp)
      have htno : t ∉ (getColMap st.mapping col).map Prod.snd := by
        have h2 : (((getColMap st.mapping col).map Prod.snd) ++
            (t :: (newEntries pfx rest (getColMap st.mapping col ++
              [(v.strRep, t)])).map Prod.snd)).Nodup := by
          simpa [List.map_append] using hnd
        have hdis := (List.nodup_append.mp h2).2.2
        intro hmem
        exact hdis hmem (List.mem_cons_self _ _)
      have hcons' : StoreConsistent st' := by
        constructor
        · intro c
          rw [hst']
          dsimp only
          rw [acontains_modifyCol, acontains_modifyCol]
          exact hcons.1 c
        · intro c
          rw [hst']
          dsimp only
          by_cases hcc : c = col
          · subst hcc
            rw [getColMap_modifyCol_self _ _ _ hcol,
              getColMap_modifyCol_self _ _ _ ((hcons.1 c).trans hcol)]
            rw [hcons.2 c]
            have hnor : acontains ((getColMap st.mapping c).map Prod.swap) t
                = false := by
              unfold acontains
              rw [alookup_swap_notmem _ _ htno]
              rfl
            rw [dinsert_not_contains _ _ _ hnor,
              dinsert_not_contains _ _ _ (by simpa using hp)]
            simp [List.map_append, Prod.swap]
          · rw [getColMap_modifyCol_ne _ _ _ _ hcc,
              getColMap_modifyCol_ne _ _ _ _ hcc]
            exact hcons.2 c
      have hcol' : acontains st'.mapping col = true := by
        rw [hst']
        dsimp only
        rw [acontains_modifyCol]
        exact hcol
      have hnd' : ((getColMap st'.mapping col ++
          newEntries pfx rest (getColMap st'.mapping col)).map Prod.snd).Nodup := by
        rw [hmap']
        simpa [List.append_assoc] using hnd
      exact ih st' hcons' hcol' hnd'

/-! ## Characterizing the column loop of `mask_dataframe` -/

/-- The final content of column `c`'s forward mapping after a masking run
whose requested columns include `c`: the prior entries followed by one
fresh entry per new distinct non-null string form. -/
def colMapAfter (pfx : String) (st : MaskerState) (df : DataFrame)
    (c : String) : List (String × String) :=
  getColMap st.mapping c ++
    newEntries pfx (uniqueNonNull ((alookup df c).getD []))
      (getColMap st.mapping c)

theorem maskLoop_saved (pfx : String) (cols : List String) (df : DataFrame)
    (st : MaskerState) : (maskLoop pfx cols df st).2.saved = st.saved := by
  induction cols generalizing df st with
  | nil => rfl
  | cons col rest ih =>
    simp only [maskLoop]
    cases hcell : alookup df col with
    | none => exact ensureCol_saved st col
    | some cells =>
      rw [ih]
      rw [processValues_saved]
      exact ensureCol_saved st col

theorem maskLoop_error (pfx : String) (cols : List String) (df : DataFrame)
    (st : MaskerState) (hmiss : ∃ c ∈ cols, alookup df c = none) :
    (maskLoop pfx cols df st).1 = Except.error () := by
  induction cols generalizing df st with
  | nil => simp at hmiss
  | cons col rest ih =>
    simp only [maskLoop]
    cases hcell : alookup df col with
    | none => rfl
    | some cells =>
      obtain ⟨c, hc, hnone⟩ := hmiss
      rcases List.mem_cons.mp hc with h | h
      · subst h
        rw [hcell] at hnone
        exact absurd hnone (by simp)
      · apply ih
        refine ⟨c, h, ?_⟩
        have hne : c ≠ col := by
          intro he
          subst he
          rw [hcell] at hnone
          simp at hnone
        rw [alookup_setCol_ne _ _ _ _ hne]
        exact hnone

theorem maskLoop_ok (pfx : String) (cols : List String) (df : DataFrame)
    (st : MaskerState) (hnd : cols.Nodup)
    (hpres : ∀ c ∈ cols, (alookup df c).isSome = true) :
    ∃ d, (maskLoop pfx cols df st).1 = Except.ok d ∧
      (∀ c ∈ cols, alookup d c =
        some (((alookup df c).getD []).map
          (maskCell (colMapAfter pfx st df c)))) ∧
      (∀ c, c ∉ cols → alookup d c = alookup df c) ∧
      (∀ c ∈ cols, getColMap (maskLoop pfx cols df st).2.mapping c =
        colMapAfter pfx st df c) ∧
      (∀ c, c ∉ cols → getColMap (maskLoop pfx cols df st).2.mapping c =
        getColMap st.mapping c) ∧
      (∀ c ∈ cols, acontains (maskLoop pfx cols df st).2.mapping c = true) ∧
      (∀ c, acontains st.mapping c = true →
        acontains (maskLoop pfx cols df st).2.mapping c = true) := by
  induction cols generalizing df st with
  | nil =>
    exact ⟨df, rfl, by simp, fun c _ => rfl, by simp, fun c _ => rfl,
      by simp, fun c h => h⟩
  | cons col rest ih =>
    obtain ⟨cells, hcell⟩ :=
      Option.isSome_iff_exists.mp (hpres col (List.mem_cons_self _ _))
    have hcolrest : col ∉ rest := (List.nodup_cons.mp hnd).1
    have hndr : rest.Nodup := (List.nodup_cons.mp hnd).2
    set st1 := ensureCol st col with hst1
    set st2 := processValues col pfx (uniqueNonNull cells) st1 with hst2
    set df2 := setCol df col
      (cells.map (maskCell (getColMap st2.mapping col))) with hdf2
    have hunfold : maskLoop pfx (col :: rest) df st =
        maskLoop pfx rest df2 st2 := by
      simp only [maskLoop, hcell]
    have hM : getColMap st2.mapping col = colMapAfter pfx st df col := by
      rw [hst2, processValues_mapping_self col pfx _ st1
        (ensureCol_acontains_self st col)]
      rw [hst1, ensureCol_getColMap]
      unfold colMapAfter
      rw [hcell]
      rfl
    have hpres2 : ∀ c ∈ rest, (alookup df2 c).isSome = true := by
      intro c hc
      rw [hdf2, isSome_setCol]
      exact hpres c (List.mem_cons_of_mem _ hc)
    have hdf2_ne : ∀ c, c ≠ col → alookup df2 c = alookup df c := by
      intro c hc
      rw [hdf2, alookup_setCol_ne _ _ _ _ hc]
    have hmap2_ne : ∀ c, c ≠ col →
        getColMap st2.mapping c = getColMap st.mapping c := by
      intro c hc
      rw [hst2, processValues_mapping_ne col pfx _ st1 c hc, hst1,
        ensureCol_getColMap]
    have hafter2 : ∀ c, c ∈ rest →
        colMapAfter pfx st2 df2 c = colMapAfter pfx st df c := by
      intro c hc
      have hne : c ≠ col := fun he => hcolrest (he ▸ hc)
      unfold colMapAfter
      rw [hmap2_ne c hne, hdf2_ne c hne]
    obtain ⟨d, hok, hd1, hd2, hm1, hm2, hac1, hac2⟩ := ih df2 st2 hndr hpres2
    refine ⟨d, ?_, ?_, ?_, ?_, ?_, ?_, ?_⟩
    · rw [hunfold]
      exact hok
    · intro c hc
      rcases List.mem_cons.mp hc with h | h
      · subst h
        rw [hd2 c hcolrest, hdf2, alookup_setCol_self df c _ cells hcell,
          hM, hcell]
        rfl
      · rw [hd1 c h, hafter2 c h, hdf2_ne c (fun he => hcolrest (he ▸ h))]
    · intro c hc
      have hcr : c ∉ rest := fun h => hc (List.mem_cons_of_mem _ h)
      have hne : c ≠ col := fun he => hc (he ▸ List.mem_cons_self _ _)
      rw [hd2 c hcr, hdf2_ne c hne]
    · intro c hc
      rw [hunfold]
      rcases List.mem_cons.mp hc with h | h
      · subst h
        rw [hm2 c hcolrest, hM]
      · rw [hm1 c h, hafter2 c h]
    · intro c hc
      have hcr : c ∉ rest := fun h => hc (List.mem_cons_of_mem _ h)
      have hne : c ≠ col := fun he => hc (he ▸ List.mem_cons_self _ _)
      rw [hunfold, hm2 c hcr, hmap2_ne c hne]
    · intro c hc
      rw [hunfold]
      rcases List.mem_cons.mp hc with h | h
      · subst h
        apply hac2
        rw [hst2, processValues_acontains]
        rw [hst1]
        exact ensureCol_acontains_self st c
      · exact hac1 c h
    · intro c hc
      rw [hunfold]
      apply hac2
      rw [hst2, processValues_acontains, hst1]
      exact ensureCol_acontains_mono st col c hc

theorem maskLoop_consistent (pfx : String) (cols : List String)
    (df : DataFrame) (st : MaskerState) (hnd : cols.Nodup)
    (hpres : ∀ c ∈ cols, (alookup df c).isSome = true)
    (hcons : StoreConsistent st)
    (hinj : ∀ c ∈ cols, ((colMapAfter pfx st df c).map Prod.snd).Nodup) :
    StoreConsistent (maskLoop pfx cols df st).2 := by
  induction cols generalizing df st with
  | nil => exact hcons
  | cons col rest ih =>
    obtain ⟨cells, hcell⟩ :=
      Option.isSome_iff_exists.mp (hpres col (List.mem_cons_self _ _))
    have hcolrest : col ∉ rest := (List.nodup_cons.mp hnd).1
    have hndr : rest.Nodup := (List.nodup_cons.mp hnd).2
    set st1 := ensureCol st col with hst1
    set st2 := processValues col pfx (uniqueNonNull cells) st1 with hst2
    set df2 := setCol df col
      (cells.map (maskCell (getColMap st2.mapping col))) with hdf2
    have hunfold : maskLoop pfx (col :: rest) df st =
        maskLoop pfx rest df2 st2 := by
      simp only [maskLoop, hcell]
    rw [hunfold]
    have hcons1 : StoreConsistent st1 := ensureCol_consistent st col hcons
    have hcons2 : StoreConsistent st2 := by
      rw [hst2]
      apply processValues_consistent col pfx _ st1 hcons1
        (ensureCol_acontains_self st col)
      rw [hst1, ensureCol_getColMap]
      have := hinj col (List.mem_cons_self _ _)
      unfold colMapAfter at this
      rw [hcell] at this
      exact this
    apply ih df2 st2 hndr
    · intro c hc
      rw [hdf2, isSome_setCol]
      exact hpres c (List.mem_cons_of_mem _ hc)
    · exact hcons2
    · intro c hc
      have hne : c ≠ col := fun he => hcolrest (he ▸ hc)
      have heq : colMapAfter pfx st2 df2 c = colMapAfter pfx st df c := by
        unfold colMapAfter
        rw [hst2, processValues_mapping_ne col pfx _ st1 c hne, hst1,
          ensureCol_getColMap, hdf2, alookup_setCol_ne _ _ _ _ hne]
      rw [heq]
      exact hinj c (List.mem_cons_of_mem _ hc)

/-! ## Wrappers for `mask_dataframe` and the unmask fold -/

theorem mask_dataframe_fst (df : DataFrame) (cols : List String)
    (pfx : String) (st : MaskerState) :
    (mask_dataframe df cols pfx st).1 = (maskLoop pfx cols df st).1 := by
  unfold mask_dataframe
  rcases h : maskLoop pfx cols df st with ⟨res, st'⟩
  cases res <;> rfl

theorem mask_dataframe_mapping (df : DataFrame) (cols : List String)
    (pfx : String) (st : MaskerState) :
    (mask_dataframe df cols pfx st).2.mapping =
      (maskLoop pfx cols df st).2.mapping := by
  unfold mask_dataframe
  rcases h : maskLoop pfx cols df st with ⟨res, st'⟩
  cases res <;> rfl

theorem mask_dataframe_rev (df : DataFrame) (cols : List String)
    (pfx : String) (st : MaskerState) :
    (mask_dataframe df cols pfx st).2.reverse_mapping =
      (maskLoop pfx cols df st).2.reverse_mapping := by
  unfold mask_dataframe
  rcases h : maskLoop pfx cols df st with ⟨res, st'⟩
  cases res <;> rfl

theorem mask_dataframe_saved_ok (df : DataFrame) (cols : List String)
    (pfx : String) (st : MaskerState) (d : DataFrame)
    (h : (maskLoop pfx cols df st).1 = Except.ok d) :
    (mask_dataframe df cols pfx st).2.saved =
      some ((maskLoop pfx cols df st).2.mapping) := by
  unfold mask_dataframe
  rcases hm : maskLoop pfx cols df st with ⟨res, st'⟩
  rw [hm] at h
  cases res with
  | ok d' => rfl
  | error e => simp at h

theorem mask_dataframe_saved_err (df : DataFrame) (cols : List String)
    (pfx : String) (st : MaskerState) (e : Unit)
    (h : (maskLoop pfx cols df st).1 = Except.error e) :
    (mask_dataframe df cols pfx st).2.saved = st.saved := by
  have hs := maskLoop_saved pfx cols df st
  unfold mask_dataframe
  rcases hm : maskLoop pfx cols df st with ⟨res, st'⟩
  rw [hm] at h hs
  cases res with
  | ok d' => simp at h
  | error e' => exact hs

theorem unmaskFold_ne (st : MaskerState) (cols : List String) (df : DataFrame)
    (c : String) (hc : c ∉ cols) :
    alookup (cols.foldl (unmaskStep st) df) c = alookup df c := by
  induction cols generalizing df with
  | nil => rfl
  | cons col rest ih =>
    have hne : c ≠ col := fun he => hc (he ▸ List.mem_cons_self _ _)
    have hcr : c ∉ rest := fun h => hc (List.mem_cons_of_mem _ h)
    simp only [List.foldl_cons]
    rw [ih _ hcr]
    unfold unmaskStep
    split
    · rw [alookup_setCol_ne _ _ _ _ hne]
    · rfl

theorem unmaskFold_mem (st : MaskerState) (cols : List String) (df : DataFrame)
    (c : String) (hnd : cols.Nodup) (hc : c ∈ cols)
    (hrev : acontains st.reverse_mapping c = true) (cells : List Cell)
    (hcell : alookup df c = some cells) :
    alookup (cols.foldl (unmaskStep st) df) c =
      some (cells.map (unmaskCell (getColMap st.reverse_mapping c))) := by
  induction cols generalizing df with
  | nil => simp at hc
  | cons col rest ih =>
    simp only [List.foldl_cons]
    rcases List.mem_cons.mp hc with h | h
    · subst h
      have hcr : c ∉ rest := (List.nodup_cons.mp hnd).1
      rw [unmaskFold_ne st rest _ c hcr]
      unfold unmaskStep
      rw [hrev]
      have hdc : acontains df c = true := by
        unfold acontains
        rw [hcell]
        rfl
      rw [hdc]
      simp only [Bool.and_self, if_true]
      rw [hcell]
      exact alookup_setCol_self df c _ cells hcell
    · have hne : c ≠ col := fun he => (List.nodup_cons.mp hnd).1 (he ▸ h)
      have hstep : alookup (unmaskStep st df col) c = alookup df c := by
        unfold unmaskStep
        split
        · rw [alookup_setCol_ne _ _ _ _ hne]
        · rfl
      exact ih (unmaskStep st df col) (List.nodup_cons.mp hnd).2 h
        (hstep ▸ hcell)

theorem unmaskStep_null (st : MaskerState) (df : DataFrame) (col c : String)
    (i : Nat) (h : ((alookup df c).getD [])[i]? = some Cell.null) :
    ((alookup (unmaskStep st df col) c).getD [])[i]? = some Cell.null := by
  unfold unmaskStep
  split
  · by_cases hc : c = col
    · subst hc
      rw [alookup_setCol, if_pos rfl]
      cases hm : alookup df c with
      | none =>
        rw [hm] at h
        simp at h
      | some cells0 =>
        rw [hm] at h
        simp only [Option.getD_some] at h
        simp only [Option.map_some', Option.getD_some, List.getElem?_map, h]
        rfl
    · rw [alookup_setCol_ne _ _ _ _ hc]
      exact h
  · exact h

theorem unmaskFold_null (st : MaskerState) (cols : List String)
    (df : DataFrame) (c : String) (i : Nat)
    (h : ((alookup df c).getD [])[i]? = some Cell.null) :
    ((alookup (cols.foldl (unmaskStep st) df) c).getD [])[i]? =
      some Cell.null := by
  induction cols generalizing df with
  | nil => exact h
  | cons col rest ih =>
    simp only [List.foldl_cons]
    exact ih (unmaskStep st df col) (unmaskStep_null st df col c i h)

/-! ## Claim theorems -/

theorem upperChar_eq_toUpper (c : Char) : upperChar c = c.toUpper := by
  show (if (decide (97 <= c.toNat) && decide (c.toNat <= 122)) = true
      then Char.ofNat (c.toNat - 32) else c) =
    if c.toNat >= 97 ∧ c.toNat <= 122
      then Char.ofNat (c.toNat - 32) else c
  split <;> split <;> simp_all

/-- C2: the value tokenizer is a deterministic pure function of
(original value, prefix): calling it twice on the same input yields the
same token, and the token is the prefix, an underscore, then the first 8
hexadecimal digits of the MD5 content digest of the value's string
representation, upper-cased. -/
theorem c2_tokenizer (v p : String) :
    generate_masked_value v p = generate_masked_value v p ∧
    generate_masked_value v p =
      p ++ "_" ++ String.mk (((md5hex v).data.take 8).map Char.toUpper) := by
  refine ⟨rfl, ?_⟩
  unfold generate_masked_value
  congr 1
  apply congrArg
  apply List.map_congr_left
  intro c _
  exact upperChar_eq_toUpper c

/-- C4 counterexample: a column of SSN-formatted strings has an SSN-family
match fraction of 1.0 > 0.7, yet `_check_data_patterns` reports only
`phone_pattern` (the phone family also fully matches `###-##-####` and is
tested earlier), so the column is not flagged with the SSN family's reason:
the families are not evaluated independently. -/
theorem c4_counterexample :
    check_data_patterns [Cell.str "123-45-6789"] = (true, "phone_pattern") ∧
    10 * (((([Cell.str "123-45-6789"].filter
        (fun c => c ≠ Cell.null)).map Cell.strRep).take 100).filter
          (fun v => matchRun SSN_PATTERN v.data)).length >
      7 * (((([Cell.str "123-45-6789"].filter
        (fun c => c ≠ Cell.null)).map Cell.strRep).take 100)).length ∧
    "phone_pattern" ≠ "ssn_pattern" := by
  refine ⟨by decide, by decide, by decide⟩

/-- The four regex families with their preprocessing flag (the credit-card
family strips spaces first) and reason strings, in source order. -/
def patternFamilies : List (List ClsRep × Bool × String) :=
  [(EMAIL_PATTERN, false, "email_pattern"),
   (PHONE_PATTERN, false, "phone_pattern"),
   (SSN_PATTERN, false, "ssn_pattern"),
   (CREDIT_CARD_PATTERN, true, "credit_card_pattern")]

/-- Does a family's match fraction over the sample exceed 0.7? -/
def familyHits (sample : List String) (fam : List ClsRep × Bool × String) :
    Bool :=
  10 * (sample.filter (fun v => matchRun fam.1
      (if fam.2.1 then (stripSpaces v).data else v.data))).length >
    7 * sample.length

/-- Amended C4 behavior, following the corrected spec words: the families
are tried in the fixed order email, phone, SSN, credit-card, and only the
first family whose fraction exceeds 0.7 provides the (single) reason. -/
def check_data_patterns_first_match (series : List Cell) : Bool × String :=
  let sample :=
    ((series.filter (fun c => c ≠ Cell.null)).map Cell.strRep).take 100
  if sample.length = 0 then (false, "")
  else
    match patternFamilies.find? (familyHits sample) with
    | some fam => (true, fam.2.2)
    | none => (false, "")

/-- C4 amended: `_check_data_patterns` is first-match-wins over the ordered
family list, not an independent evaluation of all four families. -/
theorem c4_first_match (series : List Cell) :
    check_data_patterns series = check_data_patterns_first_match series := by
  unfold check_data_patterns check_data_patterns_first_match
  set sample :=
    ((series.filter (fun c => c ≠ Cell.null)).map Cell.strRep).take 100 with hs
  by_cases h0 : sample.length = 0
  · rw [if_pos h0, if_pos h0]
  · rw [if_neg h0, if_neg h0]
    simp only [patternFamilies, List.find?]
    by_cases h1 : familyHits sample (EMAIL_PATTERN, false, "email_pattern")
    · rw [if_pos (by simpa [familyHits] using h1)]
      rw [h1]
    · rw [if_neg (by simpa [familyHits] using h1)]
      rw [Bool.of_not_eq_true h1]
      by_cases h2 : familyHits sample (PHONE_PATTERN, false, "phone_pattern")
      · rw [if_pos (by simpa [familyHits] using h2)]
        rw [h2]
      · rw [if_neg (by simpa [familyHits] using h2)]
        rw [Bool.of_not_eq_true h2]
        by_cases h3 : familyHits sample (SSN_PATTERN, false, "ssn_pattern")
        · rw [if_pos (by simpa [familyHits] using h3)]
          rw [h3]
        · rw [if_neg (by simpa [familyHits] using h3)]
          rw [Bool.of_not_eq_true h3]
          by_cases h4 : familyHits sample
            (CREDIT_CARD_PATTERN, true, "credit_card_pattern")
          · rw [if_pos (by simpa [familyHits] using h4)]
            rw [h4]
          · rw [if_neg (by simpa [familyHits] using h4)]
            rw [Bool.of_not_eq_true h4]

theorem auto_detect_step_by_cardinality (acc : DetectionResult) (col : String)
    (cells : List Cell) :
    (auto_detect_step acc col cells).by_cardinality =
      acc.by_cardinality ++
        (if isObjectDtype cells && check_high_cardinality cells then [col]
         else []) := by
  unfold auto_detect_step
  dsimp only
  by_cases hobj : isObjectDtype cells <;>
    by_cases hcard : check_high_cardinality cells <;>
      simp only [hobj, hcard, Bool.true_and, Bool.false_and, Bool.and_true,
        Bool.and_false, if_true, if_false] <;>
    split <;> split <;> split <;>
      first
        | (split <;> simp_all)
        | simp_all

theorem auto_detect_fold_by_cardinality (df : DataFrame)
    (acc : DetectionResult) :
    (df.foldl (fun a p => auto_detect_step a p.1 p.2) acc).by_cardinality =
      acc.by_cardinality ++
        (df.filter (fun p => isObjectDtype p.2 &&
          check_high_cardinality p.2)).map Prod.fst := by
  induction df generalizing acc with
  | nil => simp
  | cons p rest ih =>
    simp only [List.foldl_cons]
    rw [ih]
    rw [auto_detect_step_by_cardinality]
    by_cases h : isObjectDtype p.2 && check_high_cardinality p.2
    · rw [if_pos h]
      rw [List.filter_cons_of_pos (by simpa using h)]
      simp
    · rw [if_neg h]
      rw [List.filter_cons_of_neg (by simpa using h)]
      simp

theorem auto_detect_by_cardinality (df : DataFrame) :
    (auto_detect_sensitive_columns df).by_cardinality =
      (df.filter (fun p => isObjectDtype p.2 &&
        check_high_cardinality p.2)).map Prod.fst := by
  unfold auto_detect_sensitive_columns
  rw [auto_detect_fold_by_cardinality]
  rfl

theorem nodup_keys_cells_eq (df : DataFrame) (col : String)
    (a b : List Cell) (hnd : (df.map Prod.fst).Nodup)
    (ha : (col, a) ∈ df) (hb : (col, b) ∈ df) : a = b := by
  induction df with
  | nil => simp at ha
  | cons p rest ih =>
    simp only [List.map_cons, List.nodup_cons] at hnd
    rcases List.mem_cons.mp ha with h1 | h1 <;>
      rcases List.mem_cons.mp hb with h2 | h2
    · rw [← h1] at h2
      exact (Prod.mk.injEq _ _ _ _ |>.mp h2.symm).2
    · exfalso
      have hm : col ∈ rest.map Prod.fst := by
        simpa using List.mem_map_of_mem Prod.fst h2
      have hp : p.1 = col := by rw [← h1]
      exact hnd.1 (hp ▸ hm)
    · exfalso
      have hm : col ∈ rest.map Prod.fst := by
        simpa using List.mem_map_of_mem Prod.fst h1
      have hp : p.1 = col := by rw [← h2]
      exact hnd.1 (hp ▸ hm)
    · exact ih hnd.2 h1 h2

/-- C9: a non-empty string-typed (object-dtype) column is flagged by the
cardinality heuristic exactly when distinct-count / row-count strictly
exceeds 0.8 (stated exactly as `5 * nunique > 4 * length`); 9 distinct
values among 10 rows are flagged, 5 among 10 are not, and a column that is
not object-dtyped is never flagged by this heuristic. -/
theorem c9_cardinality :
    (∀ (df : DataFrame) (col : String) (cells : List Cell),
        (df.map Prod.fst).Nodup → (col, cells) ∈ df → cells ≠ [] →
        (col ∈ (auto_detect_sensitive_columns df).by_cardinality ↔
          isObjectDtype cells = true ∧
            5 * nunique cells > 4 * cells.length)) ∧
    (∀ (df : DataFrame) (col : String) (cells : List Cell),
        (df.map Prod.fst).Nodup → (col, cells) ∈ df →
        isObjectDtype cells = false →
        col ∉ (auto_detect_sensitive_columns df).by_cardinality) ∧
    "ids" ∈ (auto_detect_sensitive_columns
      [("ids", [Cell.str "s0", Cell.str "s1", Cell.str "s2", Cell.str "s3",
        Cell.str "s4", Cell.str "s5", Cell.str "s6", Cell.str "s7",
        Cell.str "s8", Cell.str "s0"])]).by_cardinality ∧
    "ids" ∉ (auto_detect_sensitive_columns
      [("ids", [Cell.str "s0", Cell.str "s1", Cell.str "s2", Cell.str "s3",
        Cell.str "s4", Cell.str "s0", Cell.str "s1", Cell.str "s2",
        Cell.str "s3", Cell.str "s4"])]).by_cardinality := by
  refine ⟨?_, ?_, by decide, by decide⟩
  · intro df col cells hnd hmem hne
    rw [auto_detect_by_cardinality]
    constructor
    · intro hin
      obtain ⟨p, hp, hpe⟩ := List.mem_map.mp hin
      obtain ⟨hpd, hpp⟩ := List.mem_filter.mp hp
      have hpair : p = (col, p.2) := by
        rw [← hpe]
      rw [hpair] at hpd
      have hcells : p.2 = cells := nodup_keys_cells_eq df col p.2 cells hnd hpd hmem
      rw [hcells] at hpp
      have hb := Bool.and_elim_left (by simpa using hpp)
      have hc := Bool.and_elim_right (by simpa using hpp)
      refine ⟨hb, ?_⟩
      unfold check_high_cardinality at hc
      rw [if_neg (by simpa using hne)] at hc
      simpa using hc
    · intro ⟨hobj, hgt⟩
      apply List.mem_map.mpr
      refine ⟨(col, cells), List.mem_filter.mpr ⟨hmem, ?_⟩, rfl⟩
      simp only [hobj, Bool.true_and]
      unfold check_high_cardinality
      rw [if_neg (by simpa using hne)]
      simpa using hgt
  · intro df col cells hnd hmem hobj hin
    rw [auto_detect_by_cardinality] at hin
    obtain ⟨p, hp, hpe⟩ := List.mem_map.mp hin
    obtain ⟨hpd, hpp⟩ := List.mem_filter.mp hp
    have hpair : p = (col, p.2) := by
      rw [← hpe]
    rw [hpair] at hpd
    have hcells : p.2 = cells := nodup_keys_cells_eq df col p.2 cells hnd hpd hmem
    rw [hcells] at hpp
    have hb := Bool.and_elim_left (by simpa using hpp)
    rw [hobj] at hb
    exact absurd hb (by simp)

/-- C9 witness: the if-and-only-if instantiated at a concrete two-row
string column. -/
theorem c9_witness :
    "idw" ∈ (auto_detect_sensitive_columns
        [("idw", [Cell.str "a", Cell.str "b"])]).by_cardinality ↔
      isObjectDtype [Cell.str "a", Cell.str "b"] = true ∧
        5 * nunique [Cell.str "a", Cell.str "b"] >
          4 * ([Cell.str "a", Cell.str "b"] : List Cell).length :=
  c9_cardinality.1 [("idw", [Cell.str "a", Cell.str "b"])] "idw"
    [Cell.str "a", Cell.str "b"] (by decide) (by decide) (by decide)

/-- The masker state after masking a two-row column whose values have
colliding truncated MD5 digests. -/
def collisionRun : MaskerState :=
  (mask_dataframe [("c", [Cell.str "v16306", Cell.str "v32192"])] ["c"]
    "MASKED" ⟨[], [], none⟩).2

/-- C5 counterexample: the store state reached by masking the column
`["v16306", "v32192"]` maps both distinct originals to the same token
`MASKED_E9CC272D` (their MD5 digests share the first 8 hex digits), so a
reachable column mapping is not injective and the derived reverse index
loses an entry. -/
theorem c5_counterexample :
    alookup (getColMap collisionRun.mapping "c") "v16306" =
      some "MASKED_E9CC272D" ∧
    alookup (getColMap collisionRun.mapping "c") "v32192" =
      some "MASKED_E9CC272D" ∧
    ("v16306" : String) ≠ "v32192" ∧
    ¬ ((getColMap collisionRun.mapping "c").map Prod.snd).Nodup ∧
    (getColMap collisionRun.reverse_mapping "c").length <
      (getColMap collisionRun.mapping "c").length := by
  refine ⟨by decide, by decide, by decide, by decide, by decide⟩

theorem maskLoop_mapping_grows (pfx : String) (cols : List String)
    (df : DataFrame) (st : MaskerState) (c : String) :
    ∃ ext, getColMap (maskLoop pfx cols df st).2.mapping c =
      getColMap st.mapping c ++ ext := by
  induction cols generalizing df st with
  | nil => exact ⟨[], by simp [maskLoop]⟩
  | cons col rest ih =>
    simp only [maskLoop]
    cases hcell : alookup df col with
    | none =>
      exact ⟨[], by rw [ensureCol_getColMap]; simp⟩
    | some cells =>
      set st1 := ensureCol st col with hst1
      set st2 := processValues col pfx (uniqueNonNull cells) st1 with hst2
      have hstep : ∃ ext1, getColMap st2.mapping c =
          getColMap st.mapping c ++ ext1 := by
        by_cases hc : c = col
        · subst hc
          refine ⟨newEntries pfx (uniqueNonNull cells)
            (getColMap st.mapping c), ?_⟩
          rw [hst2, processValues_mapping_self c pfx _ st1
            (ensureCol_acontains_self st c), hst1, ensureCol_getColMap]
        · refine ⟨[], ?_⟩
          rw [hst2, processValues_mapping_ne col pfx _ st1 c hc, hst1,
            ensureCol_getColMap]
          simp
      obtain ⟨ext1, h1⟩ := hstep
      obtain ⟨ext2, h2⟩ := ih
        (setCol df col (cells.map (maskCell (getColMap st2.mapping col)))) st2
      exact ⟨ext1 ++ ext2, by rw [h2, h1, List.append_assoc]⟩

/-- C5 amended: masking only ever appends entries to a column mapping
(existing keys and their tokens are never overwritten), and the resulting
column mapping is injective precisely when the appended tokens are
pairwise distinct and distinct from all previously stored tokens — a
condition the code never checks, and which a truncated-digest collision
falsifies. -/
theorem c5_injectivity (df : DataFrame) (cols : List String) (pfx : String)
    (st : MaskerState) (c : String) :
    ∃ ext, getColMap (mask_dataframe df cols pfx st).2.mapping c =
      getColMap st.mapping c ++ ext ∧
      (((getColMap (mask_dataframe df cols pfx st).2.mapping c).map
          Prod.snd).Nodup ↔
        ((getColMap st.mapping c).map Prod.snd).Nodup ∧
          (ext.map Prod.snd).Nodup ∧
          ∀ t ∈ ext.map Prod.snd,
            t ∉ (getColMap st.mapping c).map Prod.snd) := by
  obtain ⟨ext, hext⟩ := maskLoop_mapping_grows pfx cols df st c
  refine ⟨ext, ?_, ?_⟩
  · rw [mask_dataframe_mapping]
    exact hext
  · rw [mask_dataframe_mapping, hext, List.map_append, List.nodup_append]
    constructor
    · intro ⟨h1, h2, h3⟩
      exact ⟨h1, h2, fun t ht hm => h3 hm ht⟩
    · intro ⟨h1, h2, h3⟩
      exact ⟨h1, h2, fun t hm ht => h3 t ht hm⟩

/-- C3 counterexample: masking `["a", "b"]` when column `"b"` is missing
fails with an error, and the persisted document is not written — but the
in-memory store is not left unchanged: it has gained the full entry set for
the already-processed column `"a"` and an empty entry for `"b"`. -/
theorem c3_counterexample :
    (mask_dataframe [("a", [Cell.str "x"])] ["a", "b"] "MASKED"
      ⟨[], [], none⟩).1 = Except.error () ∧
    (mask_dataframe [("a", [Cell.str "x"])] ["a", "b"] "MASKED"
      ⟨[], [], none⟩).2.mapping ≠ [] ∧
    (mask_dataframe [("a", [Cell.str "x"])] ["a", "b"] "MASKED"
      ⟨[], [], none⟩).2.mapping =
      [("a", [("x", "MASKED_9DD4E461")]), ("b", [])] ∧
    (mask_dataframe [("a", [Cell.str "x"])] ["a", "b"] "MASKED"
      ⟨[], [], none⟩).2.saved = none := by
  refine ⟨by decide, by decide, by decide, by decide⟩

theorem maskLoop_isOk (pfx : String) (cols : List String) (df : DataFrame)
    (st : MaskerState) (hpres : ∀ c ∈ cols, (alookup df c).isSome = true) :
    ∃ d, (maskLoop pfx cols df st).1 = Except.ok d := by
  induction cols generalizing df st with
  | nil => exact ⟨df, rfl⟩
  | cons col rest ih =>
    obtain ⟨cells, hcell⟩ :=
      Option.isSome_iff_exists.mp (hpres col (List.mem_cons_self _ _))
    simp only [maskLoop, hcell]
    apply ih
    intro c hc
    rw [isSome_setCol]
    exact hpres c (List.mem_cons_of_mem _ hc)

/-- C3 amended: when every requested column exists, masking succeeds and
persists the full final store to the mapping document; when a requested
column is missing, the call fails and nothing is written to the persisted
document (the in-memory store, however, is mutated before the failure, as
the counterexample shows). -/
theorem c3_atomic_persist (df : DataFrame) (cols : List String)
    (pfx : String) (st : MaskerState) :
    ((∀ c ∈ cols, (alookup df c).isSome = true) →
      ∃ d, (mask_dataframe df cols pfx st).1 = Except.ok d ∧
        (mask_dataframe df cols pfx st).2.saved =
          some ((mask_dataframe df cols pfx st).2.mapping)) ∧
    ((∃ c ∈ cols, alookup df c = none) →
      (mask_dataframe df cols pfx st).1 = Except.error () ∧
      (mask_dataframe df cols pfx st).2.saved = st.saved) := by
  constructor
  · intro hpres
    obtain ⟨d, hok⟩ := maskLoop_isOk pfx cols df st hpres
    refine ⟨d, ?_, ?_⟩
    · rw [mask_dataframe_fst]
      exact hok
    · rw [mask_dataframe_saved_ok df cols pfx st d hok,
        mask_dataframe_mapping]
  · intro hmiss
    have herr := maskLoop_error pfx cols df st hmiss
    constructor
    · rw [mask_dataframe_fst]
      exact herr
    · exact mask_dataframe_saved_err df cols pfx st () herr

/-- C3 witness: both halves of the amended statement at concrete inputs —
a fully-present column list persists the store, a missing column fails
without touching the persisted document. -/
theorem c3_witness :
    (∃ d, (mask_dataframe [("a", [Cell.str "x"])] ["a"] "MASKED"
        ⟨[], [], none⟩).1 = Except.ok d ∧
      (mask_dataframe [("a", [Cell.str "x"])] ["a"] "MASKED"
        ⟨[], [], none⟩).2.saved =
        some ((mask_dataframe [("a", [Cell.str "x"])] ["a"] "MASKED"
          ⟨[], [], none⟩).2.mapping)) ∧
    ((mask_dataframe [("a", [Cell.str "x"])] ["zz"] "MASKED"
        ⟨[], [], none⟩).1 = Except.error () ∧
      (mask_dataframe [("a", [Cell.str "x"])] ["zz"] "MASKED"
        ⟨[], [], none⟩).2.saved = none) :=
  ⟨(c3_atomic_persist [("a", [Cell.str "x"])] ["a"] "MASKED"
      ⟨[], [], none⟩).1 (by decide),
   (c3_atomic_persist [("a", [Cell.str "x"])] ["zz"] "MASKED"
      ⟨[], [], none⟩).2 ⟨"zz", List.mem_cons_self _ _, by decide⟩⟩

/-- C8 counterexample: an unmask call whose requested column `"b"` is
absent from the dataset is not rejected with an error — it completes
normally, silently skips the column, and returns the dataset unchanged. -/
theorem c8_counterexample :
    unmask_dataframe [("a", [Cell.str "x"])] (some ["b"])
      ⟨[("b", [("u", "t")])], [("b", [("t", "u")])], none⟩ =
      [("a", [Cell.str "x"])] := by decide

/-- C8 amended: a mask call with a requested column missing from the
dataset does raise an error without writing the persisted document (though
after mutating the in-memory store); an unmask call with a requested
column missing from the dataset raises no error at all and leaves the
dataframe unchanged for that request, and unmasking never mutates the
store. -/
theorem c8_unknown_column (df : DataFrame) (st : MaskerState) :
    (∀ (cols : List String) (pfx : String),
      (∃ c ∈ cols, alookup df c = none) →
      (mask_dataframe df cols pfx st).1 = Except.error () ∧
      (mask_dataframe df cols pfx st).2.saved = st.saved) ∧
    (∀ c : String, acontains df c = false →
      unmask_dataframe df (some [c]) st = df) := by
  constructor
  · intro cols pfx hmiss
    have herr := maskLoop_error pfx cols df st hmiss
    exact ⟨by rw [mask_dataframe_fst]; exact herr,
      mask_dataframe_saved_err df cols pfx st () herr⟩
  · intro c hc
    unfold unmask_dataframe
    simp only [List.foldl_cons, List.foldl_nil]
    unfold unmaskStep
    rw [hc]
    simp

/-- C8 witness: the amended statement at a concrete dataframe and store. -/
theorem c8_witness :
    ((mask_dataframe [("a", [Cell.str "x"])] ["zz"] "MASKED"
        ⟨[], [], none⟩).1 = Except.error () ∧
      (mask_dataframe [("a", [Cell.str "x"])] ["zz"] "MASKED"
        ⟨[], [], none⟩).2.saved = none) ∧
    unmask_dataframe [("a", [Cell.str "x"])] (some ["zz"])
      ⟨[], [], none⟩ = [("a", [Cell.str "x"])] :=
  ⟨(c8_unknown_column [("a", [Cell.str "x"])] ⟨[], [], none⟩).1 ["zz"]
      "MASKED" ⟨"zz", List.mem_cons_self _ _, by decide⟩,
   (c8_unknown_column [("a", [Cell.str "x"])] ⟨[], [], none⟩).2 "zz"
      (by decide)⟩

/-- C6: get-or-create semantics of the store.  (1) An entry already present
in a column mapping survives masking with its stored token unchanged
(the stored token is reused, never regenerated); (2) if every distinct
non-null value of a requested column is already a key, that column's
mapping is left exactly unchanged; (3) masking the same dataset a second
time with the same column set and prefix leaves every column mapping of
the store exactly as the first run left it. -/
theorem c6_get_or_create (df : DataFrame) (cols : List String) (pfx : String)
    (st : MaskerState) (hnd : cols.Nodup)
    (hpres : ∀ c ∈ cols, (alookup df c).isSome = true) :
    (∀ (c k t : String), alookup (getColMap st.mapping c) k = some t →
      alookup (getColMap (mask_dataframe df cols pfx st).2.mapping c) k =
        some t) ∧
    (∀ c ∈ cols,
      (∀ v ∈ uniqueNonNull ((alookup df c).getD []),
        acontains (getColMap st.mapping c) v.strRep = true) →
      getColMap (mask_dataframe df cols pfx st).2.mapping c =
        getColMap st.mapping c) ∧
    (∀ c : String,
      getColMap (mask_dataframe df cols pfx
        (mask_dataframe df cols pfx st).2).2.mapping c =
      getColMap (mask_dataframe df cols pfx st).2.mapping c) := by
  obtain ⟨d, hok, hd1, hd2, hm1, hm2, hac1, hac2⟩ :=
    maskLoop_ok pfx cols df st hnd hpres
  refine ⟨?_, ?_, ?_⟩
  · intro c k t hkt
    rw [mask_dataframe_mapping]
    obtain ⟨ext, hext⟩ := maskLoop_mapping_grows pfx cols df st c
    rw [hext]
    rw [alookup_append_isSome _ _ _ (by rw [hkt]; rfl)]
    exact hkt
  · intro c hc hall
    rw [mask_dataframe_mapping, hm1 c hc]
    unfold colMapAfter
    rw [newEntries_nil_of_all_present pfx _ _ hall]
    simp
  · intro c
    set st1 := (mask_dataframe df cols pfx st).2 with hst1
    obtain ⟨d', hok', hd1', hd2', hm1', hm2', hac1', hac2'⟩ :=
      maskLoop_ok pfx cols df st1 hnd hpres
    by_cases hc : c ∈ cols
    · rw [mask_dataframe_mapping, hm1' c hc]
      unfold colMapAfter
      have hpresent : ∀ v ∈ uniqueNonNull ((alookup df c).getD []),
          acontains (getColMap st1.mapping c) v.strRep = true := by
        intro v hv
        rw [hst1, mask_dataframe_mapping, hm1 c hc]
        unfold colMapAfter
        exact newEntries_mem pfx _ _ v hv
      rw [newEntries_nil_of_all_present pfx _ _ hpresent]
      simp
    · rw [mask_dataframe_mapping, hm2' c hc]

/-- C6 witness: with `"Alice"` already stored under an arbitrary token
`"TOK"`, masking reuses the entry, changes nothing, and a second run adds
nothing. -/
theorem c6_witness :
    (alookup (getColMap (mask_dataframe [("name", [Cell.str "Alice"])]
        ["name"] "MASKED"
        ⟨[("name", [("Alice", "TOK")])], [("name", [("TOK", "Alice")])],
          none⟩).2.mapping "name") "Alice" = some "TOK") ∧
    (getColMap (mask_dataframe [("name", [Cell.str "Alice"])] ["name"]
        "MASKED" ⟨[("name", [("Alice", "TOK")])],
          [("name", [("TOK", "Alice")])], none⟩).2.mapping "name" =
      getColMap (⟨[("name", [("Alice", "TOK")])],
        [("name", [("TOK", "Alice")])], none⟩ : MaskerState).mapping
        "name") :=
  ⟨(c6_get_or_create [("name", [Cell.str "Alice"])] ["name"] "MASKED"
      ⟨[("name", [("Alice", "TOK")])], [("name", [("TOK", "Alice")])], none⟩
      (by decide) (by decide)).1 "name" "Alice" "TOK" (by decide),
   (c6_get_or_create [("name", [Cell.str "Alice"])] ["name"] "MASKED"
      ⟨[("name", [("Alice", "TOK")])], [("name", [("TOK", "Alice")])], none⟩
      (by decide) (by decide)).2.1 "name" (by decide) (by decide)⟩

/-- C7: null cells pass through masking and unmasking exactly unchanged,
and every key a masking run adds to a column mapping is the string form of
some non-null cell of that column — no mapping entry is ever created for a
null cell. -/
theorem c7_null_preservation :
    (∀ (df : DataFrame) (cols : List String) (pfx : String)
        (st : MaskerState) (d : DataFrame) (c : String) (i : Nat),
        cols.Nodup → (∀ c' ∈ cols, (alookup df c').isSome = true) →
        (mask_dataframe df cols pfx st).1 = Except.ok d →
        ((alookup df c).getD [])[i]? = some Cell.null →
        ((alookup d c).getD [])[i]? = some Cell.null) ∧
    (∀ (df : DataFrame) (colsq : Option (List String)) (st : MaskerState)
        (c : String) (i : Nat),
        ((alookup df c).getD [])[i]? = some Cell.null →
        ((alookup (unmask_dataframe df colsq st) c).getD [])[i]? =
          some Cell.null) ∧
    (∀ (df : DataFrame) (cols : List String) (pfx : String)
        (st : MaskerState) (c k : String),
        cols.Nodup → (∀ c' ∈ cols, (alookup df c').isSome = true) →
        acontains (getColMap
          (mask_dataframe df cols pfx st).2.mapping c) k = true →
        acontains (getColMap st.mapping c) k = true ∨
        ∃ v ∈ (alookup df c).getD [], v ≠ Cell.null ∧ v.strRep = k) := by
  refine ⟨?_, ?_, ?_⟩
  · intro df cols pfx st d c i hnd hpres hok hnull
    obtain ⟨d', hok', hd1, hd2, hm1, hm2, hac1, hac2⟩ :=
      maskLoop_ok pfx cols df st hnd hpres
    have hdd : d = d' := by
      rw [mask_dataframe_fst, hok'] at hok
      injection hok with h
      exact h.symm
    subst hdd
    by_cases hc : c ∈ cols
    · obtain ⟨cells, hcell⟩ := Option.isSome_iff_exists.mp (hpres c hc)
      rw [hcell] at hnull
      simp only [Option.getD_some] at hnull
      rw [hd1 c hc, hcell]
      simp only [Option.getD_some, List.getElem?_map, hnull]
      rfl
    · rw [hd2 c hc]
      exact hnull
  · intro df colsq st c i hnull
    unfold unmask_dataframe
    cases colsq with
    | some cs => exact unmaskFold_null st cs df c i hnull
    | none => exact unmaskFold_null st _ df c i hnull
  · intro df cols pfx st c k hnd hpres hacon
    obtain ⟨d', hok', hd1, hd2, hm1, hm2, hac1, hac2⟩ :=
      maskLoop_ok pfx cols df st hnd hpres
    by_cases hc : c ∈ cols
    · rw [mask_dataframe_mapping, hm1 c hc] at hacon
      unfold colMapAfter at hacon
      rw [acontains_append] at hacon
      rcases Bool.or_eq_true_iff.mp hacon with h | h
      · exact Or.inl h
      · right
        unfold acontains at h
        cases hl : alookup (newEntries pfx
            (uniqueNonNull ((alookup df c).getD []))
            (getColMap st.mapping c)) k with
        | none => rw [hl] at h; simp at h
        | some t =>
          obtain ⟨v, hv, hvk⟩ := newEntries_src pfx _ _ _ (alookup_mem _ _ _ hl)
          obtain ⟨hvc, hvn⟩ := uniqueNonNull_sub _ _ hv
          exact ⟨v, hvc, hvn, hvk.symm⟩
    · rw [mask_dataframe_mapping, hm2 c hc] at hacon
      exact Or.inl hacon

/-- C7 witness: the three parts at concrete inputs — a null cell survives
masking and unmasking, and the only key created for a one-null-one-string
column is the string cell's form. -/
theorem c7_witness :
    ((alookup [("a", [Cell.str "MASKED_9DD4E461", Cell.null])] "a").getD
      [])[1]? = some Cell.null ∧
    ((alookup (unmask_dataframe [("a", [Cell.str "x", Cell.null])]
      (some ["a"]) ⟨[], [], none⟩) "a").getD [])[1]? = some Cell.null ∧
    (acontains (getColMap (⟨[], [], none⟩ : MaskerState).mapping "a") "x"
        = true ∨
      ∃ v ∈ (alookup [("a", [Cell.str "x", Cell.null])] "a").getD [],
        v ≠ Cell.null ∧ v.strRep = "x") :=
  ⟨(c7_null_preservation.1 [("a", [Cell.str "x", Cell.null])] ["a"] "MASKED"
      ⟨[], [], none⟩ [("a", [Cell.str "MASKED_9DD4E461", Cell.null])] "a" 1
      (by decide) (by decide) (by decide) (by decide)),
   (c7_null_preservation.2.1 [("a", [Cell.str "x", Cell.null])] (some ["a"])
      ⟨[], [], none⟩ "a" 1 (by decide)),
   (c7_null_preservation.2.2 [("a", [Cell.str "x", Cell.null])] ["a"]
      "MASKED" ⟨[], [], none⟩ "a" "x" (by decide) (by decide) (by decide))⟩

theorem maskCell_eq_ite (m : List (String × String)) (x : Cell) :
    maskCell m x = if x = Cell.null then Cell.null
      else match alookup m x.strRep with
        | some t => Cell.str t
        | none => x := by
  cases x with
  | null => rw [if_pos rfl]; rfl
  | str s => rw [if_neg (by intro h; exact Cell.noConfusion h)]; rfl
  | num n => rw [if_neg (by intro h; exact Cell.noConfusion h)]; rfl

theorem unmaskCell_eq_ite (m : List (String × String)) (x : Cell) :
    unmaskCell m x = if x = Cell.null then Cell.null
      else match alookup m x.strRep with
        | some o => Cell.str o
        | none => x := by
  cases x with
  | null => rw [if_pos rfl]; rfl
  | str s => rw [if_neg (by intro h; exact Cell.noConfusion h)]; rfl
  | num n => rw [if_neg (by intro h; exact Cell.noConfusion h)]; rfl

/-- The masking run of the spec scenario's numeric column. -/
def numRun : Except Unit DataFrame × MaskerState :=
  mask_dataframe [("age", [Cell.num 30])] ["age"] "MASKED" ⟨[], [], none⟩

/-- C10: cell substitution is keyed on the stringified cell, in both
directions.  Masking replaces a non-null cell exactly when `str(cell)` is
a key of the column's (final) mapping, producing the token as a string
cell; unmasking replaces a cell whose string form is a reverse-index key
with the stored original as a string cell.  Consequently the number 30,
masked and unmasked, comes back as the string "30", not the number 30. -/
theorem c10_string_keyed (df : DataFrame) (cols : List String) (pfx : String)
    (st : MaskerState) (hnd : cols.Nodup)
    (hpres : ∀ c ∈ cols, (alookup df c).isSome = true) :
    (∀ d, (mask_dataframe df cols pfx st).1 = Except.ok d →
      ∀ c ∈ cols, alookup d c = some (((alookup df c).getD []).map (fun x =>
        if x = Cell.null then Cell.null
        else match alookup (getColMap
            (mask_dataframe df cols pfx st).2.mapping c) x.strRep with
          | some t => Cell.str t
          | none => x))) ∧
    (∀ (df' : DataFrame) (st' : MaskerState) (cols' : List String)
        (c : String) (cells : List Cell), cols'.Nodup → c ∈ cols' →
        acontains st'.reverse_mapping c = true →
        alookup df' c = some cells →
        alookup (unmask_dataframe df' (some cols') st') c =
          some (cells.map (fun x =>
            if x = Cell.null then Cell.null
            else match alookup (getColMap st'.reverse_mapping c)
                x.strRep with
              | some o => Cell.str o
              | none => x))) ∧
    (numRun.1 = Except.ok [("age", [Cell.str "MASKED_34173CB3"])] ∧
     unmask_dataframe [("age", [Cell.str "MASKED_34173CB3"])] (some ["age"])
       numRun.2 = [("age", [Cell.str "30"])] ∧
     Cell.str "30" ≠ Cell.num 30) := by
  obtain ⟨d', hok', hd1, hd2, hm1, hm2, hac1, hac2⟩ :=
    maskLoop_ok pfx cols df st hnd hpres
  refine ⟨?_, ?_, by decide, by decide, by decide⟩
  · intro d hok c hc
    have hdd : d = d' := by
      rw [mask_dataframe_fst, hok'] at hok
      injection hok with h
      exact h.symm
    subst hdd
    rw [hd1 c hc, mask_dataframe_mapping, hm1 c hc]
    apply congrArg
    apply List.map_congr_left
    intro x _
    exact maskCell_eq_ite _ x
  · intro df' st' cols' c cells hnd' hc hrev hcell
    unfold unmask_dataframe
    rw [unmaskFold_mem st' cols' df' c hnd' hc hrev cells hcell]
    apply congrArg
    apply List.map_congr_left
    intro x _
    exact unmaskCell_eq_ite _ x

/-- C10 witness: the two directional characterizations at a store holding
the entry `"7" ↦ "T7"` for column `"a"` (so no digest computation is
involved in checking them). -/
theorem c10_witness :
    alookup [("a", [Cell.str "T7", Cell.null])] "a" =
      some ([Cell.num 7, Cell.null].map (fun x =>
        if x = Cell.null then Cell.null
        else match alookup (getColMap
            (mask_dataframe [("a", [Cell.num 7, Cell.null])] ["a"] "MASKED"
              ⟨[("a", [("7", "T7")])], [("a", [("T7", "7")])],
                none⟩).2.mapping "a") x.strRep with
          | some t => Cell.str t
          | none => x)) ∧
    alookup (unmask_dataframe [("a", [Cell.str "T7"])] (some ["a"])
        ⟨[("a", [("7", "T7")])], [("a", [("T7", "7")])], none⟩) "a" =
      some ([Cell.str "T7"].map (fun x =>
        if x = Cell.null then Cell.null
        else match alookup (getColMap
            (⟨[("a", [("7", "T7")])], [("a", [("T7", "7")])], none⟩
              : MaskerState).reverse_mapping "a") x.strRep with
          | some o => Cell.str o
          | none => x)) :=
  ⟨by
    have h := (c10_string_keyed [("a", [Cell.num 7, Cell.null])] ["a"]
      "MASKED" ⟨[("a", [("7", "T7")])], [("a", [("T7", "7")])], none⟩
      (by decide) (by decide)).1 [("a", [Cell.str "T7", Cell.null])]
      (by decide) "a" (by decide)
    simpa using h,
   by
    have h := (c10_string_keyed [("a", [Cell.num 7, Cell.null])] ["a"]
      "MASKED" ⟨[("a", [("7", "T7")])], [("a", [("T7", "7")])], none⟩
      (by decide) (by decide)).2.1 [("a", [Cell.str "T7"])]
      ⟨[("a", [("7", "T7")])], [("a", [("T7", "7")])], none⟩ ["a"] "a"
      [Cell.str "T7"] (by decide) (by decide) (by decide) (by decide)
    simpa using h⟩

/-- The masking run of a single numeric cell, for the round-trip claim. -/
def c1Run : Except Unit DataFrame × MaskerState :=
  mask_dataframe [("age", [Cell.num 40])] ["age"] "MASKED" ⟨[], [], none⟩

/-- C1 counterexample: masking the numeric cell 40 and unmasking with the
same store and column set returns the string "40", not the number 40 —
even though the injectivity precondition holds at this input — so the
round trip does not restore every non-null cell to its original value. -/
theorem c1_counterexample :
    c1Run.1 = Except.ok [("age", [Cell.str "MASKED_D645920E"])] ∧
    unmask_dataframe [("age", [Cell.str "MASKED_D645920E"])] (some ["age"])
      c1Run.2 = [("age", [Cell.str "40"])] ∧
    ((getColMap c1Run.2.mapping "age").map Prod.snd).Nodup ∧
    Cell.str "40" ≠ Cell.num 40 := by
  refine ⟨by decide, by decide, by decide, by decide⟩

/-- C1 amended: for a consistent store and token-collision-free final
column mappings, unmasking the masked dataset with the same column set and
store restores every non-null cell of the masked columns to the string
representation of its original value (string cells exactly; other scalar
cells as their string form), and null cells stay null. -/
theorem c1_roundtrip (df : DataFrame) (cols : List String) (pfx : String)
    (st : MaskerState) (hnd : cols.Nodup)
    (hpres : ∀ c ∈ cols, (alookup df c).isSome = true)
    (hcons : StoreConsistent st)
    (hinj : ∀ c ∈ cols, ((colMapAfter pfx st df c).map Prod.snd).Nodup) :
    ∀ d, (mask_dataframe df cols pfx st).1 = Except.ok d →
      ∀ c ∈ cols,
        alookup (unmask_dataframe d (some cols)
          (mask_dataframe df cols pfx st).2) c =
        some (((alookup df c).getD []).map (fun x =>
          if x = Cell.null then Cell.null else Cell.str x.strRep)) := by
  obtain ⟨d', hok', hd1, hd2, hm1, hm2, hac1, hac2⟩ :=
    maskLoop_ok pfx cols df st hnd hpres
  have hconsF : StoreConsistent (maskLoop pfx cols df st).2 :=
    maskLoop_consistent pfx cols df st hnd hpres hcons hinj
  intro d hok c hc
  have hdd : d = d' := by
    rw [mask_dataframe_fst, hok'] at hok
    injection hok with h
    exact h.symm
  subst hdd
  have hrev : acontains
      (mask_dataframe df cols pfx st).2.reverse_mapping c = true := by
    rw [mask_dataframe_rev, hconsF.1 c]
    exact hac1 c hc
  have hR : getColMap
      (mask_dataframe df cols pfx st).2.reverse_mapping c =
      (colMapAfter pfx st df c).map Prod.swap := by
    rw [mask_dataframe_rev, hconsF.2 c, hm1 c hc]
  unfold unmask_dataframe
  rw [unmaskFold_mem (mask_dataframe df cols pfx st).2 cols d c hnd hc hrev
    (((alookup df c).getD []).map (maskCell (colMapAfter pfx st df c)))
    (hd1 c hc)]
  rw [hR, List.map_map]
  apply congrArg
  apply List.map_congr_left
  intro x hx
  by_cases hxn : x = Cell.null
  · subst hxn
    rw [if_pos rfl]
    rfl
  · rw [if_neg hxn]
    have hxu : x ∈ uniqueNonNull ((alookup df c).getD []) :=
      mem_uniqueNonNull _ x hx hxn
    have hcont : acontains (colMapAfter pfx st df c) x.strRep = true :=
      newEntries_mem pfx _ _ x hxu
    unfold acontains at hcont
    cases hl : alookup (colMapAfter pfx st df c) x.strRep with
    | none => rw [hl] at hcont; simp at hcont
    | some t =>
      have hmask : maskCell (colMapAfter pfx st df c) x = Cell.str t := by
        rw [maskCell_eq_ite, if_neg hxn, hl]
      have hswap : alookup ((colMapAfter pfx st df c).map Prod.swap) t =
          some x.strRep :=
        alookup_map_swap _ _ _ hl (hinj c hc)
      show unmaskCell ((colMapAfter pfx st df c).map Prod.swap)
        (maskCell (colMapAfter pfx st df c) x) = Cell.str x.strRep
      rw [hmask, unmaskCell_eq_ite,
        if_neg (fun h => Cell.noConfusion h)]
      show (match alookup ((colMapAfter pfx st df c).map Prod.swap) t with
        | some o => Cell.str o
        | none => Cell.str t) = Cell.str x.strRep
      rw [hswap]

/-- C1 witness: masking then unmasking a name column containing a string
and a null with an empty store restores it exactly (the string form of a
string cell is itself). -/
theorem c1_witness :
    alookup (unmask_dataframe
      [("name", [Cell.str "MASKED_64489C85", Cell.null])] (some ["name"])
      (mask_dataframe [("name", [Cell.str "Alice", Cell.null])] ["name"]
        "MASKED" ⟨[], [], none⟩).2) "name" =
    some (((alookup [("name", [Cell.str "Alice", Cell.null])]
      "name").getD []).map (fun x =>
        if x = Cell.null then Cell.null else Cell.str x.strRep)) :=
  c1_roundtrip [("name", [Cell.str "Alice", Cell.null])] ["name"] "MASKED"
    ⟨[], [], none⟩ (by decide) (by decide) ⟨fun _ => rfl, fun _ => rfl⟩
    (by decide) [("name", [Cell.str "MASKED_64489C85", Cell.null])]
    (by decide) "name" (by decide)
